import Mathlib

/-!
# Verification of the nodus-community grid engine

A shallow embedding of `src-tauri/grid-engine-wasm/src/lib.rs`: rectangular
widgets on an integer grid, compaction ("optimize layout"), drag conflict
resolution ("resolve conflicts") and best-position search.  Machine integers
(`i32`) are modelled as `Int`; the `HashSet<(i32, i32)>` of occupied cells is
modelled as a `List (Int × Int)` observed only through membership, which is
exactly how the Rust code observes it.  Rust's stable `sort_by`/`sort_by_key`
is modelled as a structural stable insertion sort `sortB`, proved below to
coincide with `List.mergeSort` so that the stability and sortedness theory of
the standard library applies.
-/

namespace GridEngine

/-- `Position {x, y, w, h}` from the Rust source (all `i32`). -/
structure Position where
  x : Int
  y : Int
  w : Int
  h : Int
deriving DecidableEq, Repr, Inhabited

/-- `Widget` from the Rust source.  `is_dragged` and `original_position`
are the `#[serde(skip)]` runtime-only fields. -/
structure Widget where
  id : String
  position : Position
  locked : Bool
  is_dragged : Bool
  original_position : Option Position
deriving DecidableEq, Repr, Inhabited

/-- `GridConfig` from the Rust source. -/
structure GridConfig where
  columns : Int
  gap : Int
  float : Bool
  static_grid : Bool
deriving DecidableEq, Repr, Inhabited

/-- `OccupiedGrid`: the set of occupied cells plus the column count.  The
Rust `HashSet` is modelled by a list observed through membership only. -/
structure OccupiedGrid where
  positions : List (Int × Int)
  columns : Int
deriving Repr

/-- `OccupiedGrid::new`. -/
def OccupiedGrid.new (columns : Int) : OccupiedGrid :=
  { positions := [], columns := columns }

/-- The grid cells covered by a position: `(x, y)` for
`y in pos.y..pos.y+pos.h`, `x in pos.x..pos.x+pos.w` (the loops of
`register_occupied`/`can_place_at`; empty when `w ≤ 0` or `h ≤ 0`,
as for Rust ranges). -/
def Position.cells (p : Position) : List (Int × Int) :=
  (List.range p.h.toNat).flatMap fun (dy : Nat) =>
    (List.range p.w.toNat).map fun (dx : Nat) => (p.x + (dx : Int), p.y + (dy : Int))

/-- `OccupiedGrid::can_place_at`. -/
def OccupiedGrid.can_place_at (g : OccupiedGrid) (pos : Position) : Bool :=
  if pos.x < 0 || pos.y < 0 || pos.x + pos.w > g.columns then false
  else pos.cells.all fun c => !(decide (c ∈ g.positions))

/-- `OccupiedGrid::register_occupied`. -/
def OccupiedGrid.register_occupied (g : OccupiedGrid) (pos : Position) : OccupiedGrid :=
  { g with positions := pos.cells ++ g.positions }

/-- The loop body of `OccupiedGrid::find_highest_position`, with explicit
fuel.  The Rust `while` loop decrements `pos.y` once per iteration and runs
only while `pos.y > 0`, so `pos.y.toNat` units of fuel reproduce it exactly. -/
def OccupiedGrid.fhp_go (g : OccupiedGrid) : Nat → Position → Position
  | 0, pos => pos
  | fuel + 1, pos =>
    if pos.y > 0 && g.can_place_at { pos with y := pos.y - 1 } then
      OccupiedGrid.fhp_go g fuel { pos with y := pos.y - 1 }
    else pos

/-- `OccupiedGrid::find_highest_position`: move the position up one row at a
time while the row above is free. -/
def OccupiedGrid.find_highest_position (g : OccupiedGrid) (pos : Position) : Position :=
  OccupiedGrid.fhp_go g pos.y.toNat pos

/-- `OccupiedGrid::find_best_position`: row-major scan over
`y in 0..1000`, `x in 0..(columns - w + 1)`, returning the first placeable
position, with the `{x: 0, y: 1000, ..}` fallback. -/
def OccupiedGrid.find_best_position (g : OccupiedGrid) (widget : Widget) : Position :=
  let pos := widget.position
  match (List.range 1000).findSome? (fun y =>
      (List.range (g.columns - pos.w + 1).toNat).findSome? fun x =>
        let test := { pos with x := (x : Int), y := (y : Int) }
        if g.can_place_at test then some test else none) with
  | some p => p
  | none => { pos with x := 0, y := 1000 }

/-- `blocks_collide`: axis-aligned rectangle overlap. -/
def blocks_collide (a b : Position) : Bool :=
  !(decide (a.x ≥ b.x + b.w) || decide (a.x + a.w ≤ b.x)
    || decide (a.y ≥ b.y + b.h) || decide (a.y + a.h ≤ b.y))

/-- Stable insertion step: insert `a` before the first element `b` with
`le a b`. -/
def insertB (le : α → α → Bool) (a : α) : List α → List α
  | [] => [a]
  | b :: l => if le a b then a :: b :: l else b :: insertB le a l

/-- Stable insertion sort.  This models Rust's stable `sort_by`/`sort_by_key`;
`sortB_eq_mergeSort` below identifies it with `List.mergeSort`. -/
def sortB (le : α → α → Bool) : List α → List α
  | [] => []
  | a :: l => insertB le a (sortB le l)

/-- The comparator of `optimize_layout`:
`a.position.y.cmp(&b.position.y).then(a.position.x.cmp(&b.position.x))`,
as a boolean "less or equal". -/
def le_yx (a b : Widget) : Bool :=
  decide (a.position.y < b.position.y)
    || (decide (a.position.y = b.position.y) && decide (a.position.x ≤ b.position.x))

/-- The placement loop of compact mode: each non-locked widget is pulled to
its highest position and registered; locked widgets are left alone. -/
def place_widgets (g : OccupiedGrid) : List Widget → List Widget
  | [] => []
  | b :: ws =>
    if b.locked then b :: place_widgets g ws
    else
      let new_pos := g.find_highest_position b.position
      { b with position := new_pos } :: place_widgets (g.register_occupied new_pos) ws

/-- Register every widget of a list (used for the locked widgets in
`optimize_layout`/`resolve_conflicts` and for all widgets in
`find_best_position`). -/
def register_all (g : OccupiedGrid) (ws : List Widget) : OccupiedGrid :=
  ws.foldl (fun g b => g.register_occupied b.position) g

/-- The float-mode body of `optimize_layout`: clamp a non-locked widget's `x`
into bounds via `x.max(0).min(columns - w)` and raise a negative `y` to 0. -/
def float_fix (config : GridConfig) (b : Widget) : Widget :=
  if b.locked then b
  else { b with position :=
    { b.position with
      x := min (max b.position.x 0) (config.columns - b.position.w),
      y := max b.position.y 0 } }

/-- `optimize_layout` (the pure core, after JSON decoding): float mode clamps
non-locked widgets into bounds; compact mode stable-sorts by `(y, x)` and
pulls every non-locked widget up. -/
def optimize_layout (widgets : List Widget) (config : GridConfig) : List Widget :=
  if config.float then
    widgets.map (float_fix config)
  else
    let sorted := sortB le_yx widgets
    let occupied := register_all (OccupiedGrid.new config.columns)
      (sorted.filter fun b => b.locked)
    place_widgets occupied sorted

/-- One iteration of the push phase of `resolve_conflicts`: if the block at
index `i` collides with the dragged position, push it down to
`dragged.y + dragged.h` when that is lower. -/
def push_step (dragged_pos : Position) (ws : List Widget) (i : Nat) : List Widget :=
  let block := ws.getD i default
  if blocks_collide block.position dragged_pos then
    let new_y := dragged_pos.y + dragged_pos.h
    if new_y > block.position.y then
      ws.set i { block with position := { block.position with y := new_y } }
    else ws
  else ws

/-- The push phase of `resolve_conflicts`: the indices are visited in
ascending `y` order of the pre-push positions. -/
def push_down (dragged_pos : Position) (ws : List Widget) (idxs : List Nat) : List Widget :=
  idxs.foldl (push_step dragged_pos) ws

/-- One iteration of the compact phase of `resolve_conflicts`: pull the block
at index `i` to its highest position and register it. -/
def compact_step (s : List Widget × OccupiedGrid) (i : Nat) : List Widget × OccupiedGrid :=
  let block := s.1.getD i default
  let new_pos := s.2.find_highest_position block.position
  (s.1.set i { block with position := new_pos }, s.2.register_occupied new_pos)

/-- The compact phase of `resolve_conflicts`. -/
def compact_except (g : OccupiedGrid) (ws : List Widget) (idxs : List Nat) : List Widget :=
  (idxs.foldl compact_step (ws, g)).1

/-- The index lists of `resolve_conflicts`: all indices other than the dragged
one whose widget is not locked, stably sorted by the widget's current `y`
(`sort_by_key` on `position.y`). -/
def unlocked_indices (ws : List Widget) (dragged_index : Nat) : List Nat :=
  sortB (fun i j => decide ((ws.getD i default).position.y ≤ (ws.getD j default).position.y))
    ((List.range ws.length).filter fun i =>
      i != dragged_index && !(ws.getD i default).locked)

/-- Mark the dragged widget: `widgets[dragged_index].is_dragged = true`. -/
def marked_widgets (widgets : List Widget) (dragged_index : Nat) : List Widget :=
  widgets.set dragged_index
    { widgets.getD dragged_index default with is_dragged := true }

/-- The body of `resolve_conflicts` once the dragged index has been found:
mark the dragged widget, push colliding blocks down, then compact everything
except the dragged widget against a grid seeded with the dragged and locked
footprints. -/
def resolve_core (widgets : List Widget) (config : GridConfig)
    (dragged_index : Nat) : List Widget :=
  let widgets := marked_widgets widgets dragged_index
  let dragged_pos := (widgets.getD dragged_index default).position
  let sorted_indices := unlocked_indices widgets dragged_index
  let widgets := push_down dragged_pos widgets sorted_indices
  let occupied := (OccupiedGrid.new config.columns).register_occupied dragged_pos
  let occupied := register_all occupied (widgets.filter fun b => b.locked)
  let compact_indices := unlocked_indices widgets dragged_index
  compact_except occupied widgets compact_indices

/-- `resolve_conflicts` (the pure core): falls back to `optimize_layout` when
the dragged id is absent. -/
def resolve_conflicts (widgets : List Widget) (config : GridConfig)
    (dragged_widget_id : String) : List Widget :=
  match widgets.findIdx? (fun b => b.id == dragged_widget_id) with
  | none => optimize_layout widgets config
  | some dragged_index => resolve_core widgets config dragged_index

/-- `find_best_position` (the pure core): seed a grid with every existing
widget, then scan. -/
def find_best_position (widgets : List Widget) (new_widget : Widget)
    (config : GridConfig) : Position :=
  let occupied := register_all (OccupiedGrid.new config.columns) widgets
  occupied.find_best_position new_widget

/-- The error message built by `parse_from_js` for a deserialization
failure `e`. -/
def deserialization_error (e : String) : String :=
  "Deserialization error: " ++ e

/-- Substring test (on the character lists), used to check whether an error
message names an operation. -/
def contains_sub (haystack needle : String) : Bool :=
  (List.range (haystack.toList.length + 1)).any fun i =>
    needle.toList.isPrefixOf (haystack.toList.drop i)

/-- Concrete non-locked widget, for witnesses and counterexamples. -/
def wid (s : String) (x y w h : Int) : Widget :=
  { id := s, position := { x := x, y := y, w := w, h := h },
    locked := false, is_dragged := false, original_position := none }

/-- Concrete locked widget, for witnesses and counterexamples. -/
def lwid (s : String) (x y w h : Int) : Widget :=
  { id := s, position := { x := x, y := y, w := w, h := h },
    locked := true, is_dragged := false, original_position := none }

/-- Concrete compact-mode (non-float) config, for witnesses and
counterexamples. -/
def cfg_compact (cols : Int) : GridConfig :=
  { columns := cols, gap := 0, float := false, static_grid := false }

/-- Concrete float-mode config, for witnesses and counterexamples. -/
def cfg_float (cols : Int) : GridConfig :=
  { columns := cols, gap := 0, float := true, static_grid := false }

/-- `optimize_layout` at the JS boundary: each argument is either a parsed
value or a parse failure message, and the first failure is reported via
`deserialization_error` (widgets are parsed before the config, as in the
source). -/
def optimize_layout_js (js_widgets : Except String (List Widget))
    (js_config : Except String GridConfig) : Except String (List Widget) :=
  match js_widgets with
  | Except.error e => Except.error (deserialization_error e)
  | Except.ok ws =>
    match js_config with
    | Except.error e => Except.error (deserialization_error e)
    | Except.ok cfg => Except.ok (optimize_layout ws cfg)

/-- `resolve_conflicts` at the JS boundary. -/
def resolve_conflicts_js (js_widgets : Except String (List Widget))
    (js_config : Except String GridConfig) (dragged_widget_id : String) :
    Except String (List Widget) :=
  match js_widgets with
  | Except.error e => Except.error (deserialization_error e)
  | Except.ok ws =>
    match js_config with
    | Except.error e => Except.error (deserialization_error e)
    | Except.ok cfg => Except.ok (resolve_conflicts ws cfg dragged_widget_id)

/-- `find_best_position` at the JS boundary (widgets, then the new widget,
then the config, as in the source). -/
def find_best_position_js (js_widgets : Except String (List Widget))
    (js_new_widget : Except String Widget)
    (js_config : Except String GridConfig) : Except String Position :=
  match js_widgets with
  | Except.error e => Except.error (deserialization_error e)
  | Except.ok ws =>
    match js_new_widget with
    | Except.error e => Except.error (deserialization_error e)
    | Except.ok nw =>
      match js_config with
      | Except.error e => Except.error (deserialization_error e)
      | Except.ok cfg => Except.ok (find_best_position ws nw cfg)

/-! ## Geometry lemmas -/

theorem Position.mem_cells {p : Position} {c : Int × Int} :
    c ∈ p.cells ↔ p.x ≤ c.1 ∧ c.1 < p.x + p.w ∧ p.y ≤ c.2 ∧ c.2 < p.y + p.h := by
  obtain ⟨c1, c2⟩ := c
  show (c1, c2) ∈ p.cells ↔ p.x ≤ c1 ∧ c1 < p.x + p.w ∧ p.y ≤ c2 ∧ c2 < p.y + p.h
  constructor
  · intro h
    obtain ⟨dy, hdy, hmem⟩ := List.mem_flatMap.mp h
    obtain ⟨dx, hdx, hc⟩ := List.mem_map.mp hmem
    rw [List.mem_range] at hdy hdx
    rw [Prod.mk.injEq] at hc
    obtain ⟨h1, h2⟩ := hc
    omega
  · intro h
    obtain ⟨h1, h2, h3, h4⟩ := h
    refine List.mem_flatMap.mpr ⟨(c2 - p.y).toNat, List.mem_range.mpr (by omega),
      List.mem_map.mpr ⟨(c1 - p.x).toNat, List.mem_range.mpr (by omega), ?_⟩⟩
    rw [Prod.mk.injEq]
    constructor <;> omega

theorem blocks_collide_eq_true_iff {a b : Position} :
    blocks_collide a b = true ↔
      a.x < b.x + b.w ∧ b.x < a.x + a.w ∧ a.y < b.y + b.h ∧ b.y < a.y + a.h := by
  simp only [blocks_collide, Bool.not_eq_true', Bool.or_eq_false_iff,
    decide_eq_false_iff_not, not_le]
  omega

theorem blocks_collide_eq_false_iff {a b : Position} :
    blocks_collide a b = false ↔
      b.x + b.w ≤ a.x ∨ a.x + a.w ≤ b.x ∨ b.y + b.h ≤ a.y ∨ a.y + a.h ≤ b.y := by
  rw [← Bool.not_eq_true, blocks_collide_eq_true_iff]
  omega

theorem blocks_collide_symm (a b : Position) :
    blocks_collide a b = blocks_collide b a := by
  by_cases h : blocks_collide a b = true
  · rw [h]; symm; rw [blocks_collide_eq_true_iff] at h ⊢; omega
  · rw [Bool.not_eq_true] at h
    rw [h]; symm; rw [blocks_collide_eq_false_iff] at h ⊢; omega

/-- Two genuinely two-dimensional rectangles that collide share a grid cell. -/
theorem exists_shared_cell {a b : Position} (hab : blocks_collide a b = true)
    (haw : 0 < a.w) (hah : 0 < a.h) (hbw : 0 < b.w) (hbh : 0 < b.h) :
    ∃ c, c ∈ a.cells ∧ c ∈ b.cells := by
  rw [blocks_collide_eq_true_iff] at hab
  refine ⟨(max a.x b.x, max a.y b.y), ?_, ?_⟩ <;> rw [Position.mem_cells] <;>
    simp only [] <;> omega

/-! ## OccupiedGrid lemmas -/

theorem can_place_at_eq_true_iff {g : OccupiedGrid} {pos : Position} :
    g.can_place_at pos = true ↔
      0 ≤ pos.x ∧ 0 ≤ pos.y ∧ pos.x + pos.w ≤ g.columns ∧
        ∀ c ∈ pos.cells, c ∉ g.positions := by
  simp only [OccupiedGrid.can_place_at]
  split_ifs with h
  · simp only [Bool.or_eq_true, decide_eq_true_eq] at h
    constructor
    · intro hh; exact absurd hh (by simp)
    · intro hh; exfalso; omega
  · simp only [Bool.or_eq_true, decide_eq_true_eq, not_or, not_lt] at h
    simp only [List.all_eq_true, Bool.not_eq_true', decide_eq_false_iff_not]
    constructor
    · intro hh
      refine ⟨by omega, by omega, by omega, hh⟩
    · intro hh; exact hh.2.2.2

theorem can_place_at_eq_false_of_mem {g : OccupiedGrid} {pos : Position}
    {c : Int × Int} (hc : c ∈ pos.cells) (hg : c ∈ g.positions) :
    g.can_place_at pos = false := by
  rw [← Bool.not_eq_true, can_place_at_eq_true_iff]
  intro hh
  exact hh.2.2.2 c hc hg

theorem can_place_at_eq_false_of_bounds {g : OccupiedGrid} {pos : Position}
    (h : pos.x < 0 ∨ pos.y < 0 ∨ pos.x + pos.w > g.columns) :
    g.can_place_at pos = false := by
  rw [← Bool.not_eq_true, can_place_at_eq_true_iff]
  intro hh
  omega

/-- Growing the occupied set can only invalidate placements. -/
theorem can_place_at_of_subset {g g' : OccupiedGrid} {pos : Position}
    (hsub : ∀ c, c ∈ g.positions → c ∈ g'.positions)
    (hc : g.columns = g'.columns) (h : g'.can_place_at pos = true) :
    g.can_place_at pos = true := by
  rw [can_place_at_eq_true_iff] at h ⊢
  exact ⟨h.1, h.2.1, hc ▸ h.2.2.1, fun c hcc hcg => h.2.2.2 c hcc (hsub c hcg)⟩

@[simp] theorem register_occupied_columns (g : OccupiedGrid) (p : Position) :
    (g.register_occupied p).columns = g.columns := rfl

@[simp] theorem mem_register_occupied {g : OccupiedGrid} {p : Position} {c : Int × Int} :
    c ∈ (g.register_occupied p).positions ↔ c ∈ p.cells ∨ c ∈ g.positions := by
  simp [OccupiedGrid.register_occupied]

theorem register_all_columns (g : OccupiedGrid) (ws : List Widget) :
    (register_all g ws).columns = g.columns := by
  induction ws generalizing g with
  | nil => rfl
  | cons b ws ih => simp only [register_all, List.foldl_cons] at *; rw [ih]; rfl

theorem mem_register_all {g : OccupiedGrid} {ws : List Widget} {c : Int × Int} :
    c ∈ (register_all g ws).positions ↔
      (∃ b ∈ ws, c ∈ b.position.cells) ∨ c ∈ g.positions := by
  induction ws generalizing g with
  | nil => simp [register_all]
  | cons b ws ih =>
    simp only [register_all, List.foldl_cons] at *
    rw [ih]
    simp only [mem_register_occupied, List.mem_cons]
    constructor
    · rintro (⟨w, hw, hc⟩ | hc | hc)
      · exact Or.inl ⟨w, Or.inr hw, hc⟩
      · exact Or.inl ⟨b, Or.inl rfl, hc⟩
      · exact Or.inr hc
    · rintro (⟨w, hw | hw, hc⟩ | hc)
      · subst hw; exact Or.inr (Or.inl hc)
      · exact Or.inl ⟨w, hw, hc⟩
      · exact Or.inr (Or.inr hc)

/-! ## find_highest_position lemmas -/

theorem fhp_go_xwh (g : OccupiedGrid) :
    ∀ (fuel : Nat) (pos : Position),
      (g.fhp_go fuel pos).x = pos.x ∧ (g.fhp_go fuel pos).w = pos.w ∧
        (g.fhp_go fuel pos).h = pos.h
  | 0, pos => ⟨rfl, rfl, rfl⟩
  | fuel + 1, pos => by
    rw [OccupiedGrid.fhp_go]
    split_ifs with h
    · exact fhp_go_xwh g fuel _
    · exact ⟨rfl, rfl, rfl⟩

theorem fhp_go_y_le (g : OccupiedGrid) :
    ∀ (fuel : Nat) (pos : Position), (g.fhp_go fuel pos).y ≤ pos.y
  | 0, _ => le_refl _
  | fuel + 1, pos => by
    rw [OccupiedGrid.fhp_go]
    split_ifs with h
    · have := fhp_go_y_le g fuel { pos with y := pos.y - 1 }
      simp only at this
      omega
    · exact le_refl _

theorem fhp_go_eq_or_can_place (g : OccupiedGrid) :
    ∀ (fuel : Nat) (pos : Position),
      g.fhp_go fuel pos = pos ∨ g.can_place_at (g.fhp_go fuel pos) = true
  | 0, _ => Or.inl rfl
  | fuel + 1, pos => by
    rw [OccupiedGrid.fhp_go]
    split_ifs with h
    · rcases fhp_go_eq_or_can_place g fuel { pos with y := pos.y - 1 } with heq | hcp
      · rw [heq]
        simp only [Bool.and_eq_true] at h
        exact Or.inr h.2
      · exact Or.inr hcp
    · exact Or.inl rfl

theorem fhp_go_stop (g : OccupiedGrid) :
    ∀ (fuel : Nat) (pos : Position), pos.y.toNat ≤ fuel →
      (g.fhp_go fuel pos).y ≤ 0 ∨
        g.can_place_at { g.fhp_go fuel pos with y := (g.fhp_go fuel pos).y - 1 } = false
  | 0, pos, hf => by
    rw [OccupiedGrid.fhp_go]
    left
    omega
  | fuel + 1, pos, hf => by
    rw [OccupiedGrid.fhp_go]
    split_ifs with h
    · simp only [Bool.and_eq_true, decide_eq_true_eq] at h
      exact fhp_go_stop g fuel { pos with y := pos.y - 1 } (by simp only; omega)
    · simp only [Bool.and_eq_true, decide_eq_true_eq, not_and] at h
      by_cases hy : pos.y > 0
      · right
        exact Bool.eq_false_iff.mpr (h hy)
      · left; omega

theorem fhp_go_of_stop (g : OccupiedGrid) (fuel : Nat) (pos : Position)
    (h : pos.y ≤ 0 ∨ g.can_place_at { pos with y := pos.y - 1 } = false) :
    g.fhp_go fuel pos = pos := by
  cases fuel with
  | zero => rfl
  | succ fuel =>
    rw [OccupiedGrid.fhp_go]
    rcases h with hy | hcp
    · rw [if_neg]
      simp only [Bool.and_eq_true, decide_eq_true_eq, not_and]
      intro hy2
      omega
    · rw [if_neg]
      simp only [Bool.and_eq_true, decide_eq_true_eq, not_and]
      intro _
      simp [hcp]

theorem fhp_xwh (g : OccupiedGrid) (pos : Position) :
    (g.find_highest_position pos).x = pos.x ∧
      (g.find_highest_position pos).w = pos.w ∧
        (g.find_highest_position pos).h = pos.h :=
  fhp_go_xwh g pos.y.toNat pos

theorem fhp_y_le (g : OccupiedGrid) (pos : Position) :
    (g.find_highest_position pos).y ≤ pos.y :=
  fhp_go_y_le g pos.y.toNat pos

theorem fhp_eq_or_can_place (g : OccupiedGrid) (pos : Position) :
    g.find_highest_position pos = pos ∨
      g.can_place_at (g.find_highest_position pos) = true :=
  fhp_go_eq_or_can_place g pos.y.toNat pos

theorem fhp_stop (g : OccupiedGrid) (pos : Position) :
    (g.find_highest_position pos).y ≤ 0 ∨
      g.can_place_at { g.find_highest_position pos with
        y := (g.find_highest_position pos).y - 1 } = false :=
  fhp_go_stop g pos.y.toNat pos (le_refl _)

theorem fhp_of_stop (g : OccupiedGrid) (pos : Position)
    (h : pos.y ≤ 0 ∨ g.can_place_at { pos with y := pos.y - 1 } = false) :
    g.find_highest_position pos = pos :=
  fhp_go_of_stop g pos.y.toNat pos h

/-! ## Stable sort: sortB coincides with List.mergeSort -/

theorem insertB_cons (le : α → α → Bool) (a b : α) (l : List α) :
    insertB le a (b :: l) = if le a b then a :: b :: l else b :: insertB le a l := rfl

theorem insertB_append {le : α → α → Bool} {a : α} {l₁ l₂ : List α}
    (h : ∀ b ∈ l₁, le a b = false) :
    insertB le a (l₁ ++ l₂) = l₁ ++ insertB le a l₂ := by
  induction l₁ with
  | nil => rfl
  | cons b l₁ ih =>
    rw [List.cons_append, insertB_cons, if_neg (by simp [h b (List.mem_cons_self b l₁)]),
      ih (fun c hc => h c (List.mem_cons_of_mem b hc)), List.cons_append]

theorem sortB_eq_mergeSort {le : α → α → Bool}
    (htrans : ∀ a b c : α, le a b = true → le b c = true → le a c = true)
    (htotal : ∀ a b : α, (le a b || le b a) = true) :
    ∀ l : List α, sortB le l = l.mergeSort le := by
  intro l
  induction l with
  | nil => simp [sortB]
  | cons a l ih =>
    obtain ⟨l₁, l₂, h1, h2, h3⟩ := List.mergeSort_cons htrans htotal a l
    rw [show sortB le (a :: l) = insertB le a (sortB le l) from rfl, ih, h2,
      insertB_append (fun b hb => by have := h3 b hb; simpa using this), h1]
    congr 1
    cases l₂ with
    | nil => rfl
    | cons c l₂ =>
      rw [insertB, if_pos]
      have hs := List.sorted_mergeSort htrans htotal (a :: l)
      rw [h1] at hs
      have hsub : (a :: c :: l₂).Sublist (l₁ ++ a :: c :: l₂) :=
        List.sublist_append_right l₁ _
      have := hs.sublist hsub
      exact List.rel_of_pairwise_cons this (List.mem_cons_self c l₂)

theorem sortB_perm {le : α → α → Bool}
    (htrans : ∀ a b c : α, le a b = true → le b c = true → le a c = true)
    (htotal : ∀ a b : α, (le a b || le b a) = true) (l : List α) :
    (sortB le l).Perm l := by
  rw [sortB_eq_mergeSort htrans htotal]
  exact List.mergeSort_perm l le

theorem sortB_sorted {le : α → α → Bool}
    (htrans : ∀ a b c : α, le a b = true → le b c = true → le a c = true)
    (htotal : ∀ a b : α, (le a b || le b a) = true) (l : List α) :
    List.Pairwise (fun a b => le a b = true) (sortB le l) := by
  rw [sortB_eq_mergeSort htrans htotal]
  exact List.sorted_mergeSort htrans htotal l

/-- Stability of `sortB`, in filter form: the subsequence of elements
satisfying a predicate that forces mutual `le` is untouched by sorting. -/
theorem sortB_filter_stable {le : α → α → Bool}
    (htrans : ∀ a b c : α, le a b = true → le b c = true → le a c = true)
    (htotal : ∀ a b : α, (le a b || le b a) = true) (l : List α) (p : α → Bool)
    (hp : ∀ a b, p a = true → p b = true → le a b = true) :
    (sortB le l).filter p = l.filter p := by
  have hpair : List.Pairwise (fun a b => le a b = true) (l.filter p) := by
    rw [List.pairwise_iff_getElem]
    intro i j hi hj _
    have h1 := List.getElem_mem hi
    have h2 := List.getElem_mem hj
    exact hp _ _ (List.mem_filter.mp h1).2 (List.mem_filter.mp h2).2
  have hsub : (l.filter p).Sublist (sortB le l) := by
    rw [sortB_eq_mergeSort htrans htotal]
    exact List.sublist_mergeSort htrans htotal hpair (List.filter_sublist l)
  have hsub2 : (l.filter p).Sublist ((sortB le l).filter p) := by
    have := hsub.filter p
    rwa [List.filter_filter, (by
      funext a
      by_cases h : p a = true <;> simp [h] : (fun a => p a && p a) = p)] at this
  have hlen : (l.filter p).length = ((sortB le l).filter p).length := by
    rw [← List.countP_eq_length_filter, ← List.countP_eq_length_filter]
    exact ((sortB_perm htrans htotal l).countP_eq p).symm
  exact (hsub2.eq_of_length hlen).symm

theorem le_yx_iff {a b : Widget} :
    le_yx a b = true ↔
      a.position.y < b.position.y ∨
        (a.position.y = b.position.y ∧ a.position.x ≤ b.position.x) := by
  simp [le_yx]

theorem le_yx_trans (a b c : Widget) (h1 : le_yx a b = true) (h2 : le_yx b c = true) :
    le_yx a c = true := by
  rw [le_yx_iff] at *
  omega

theorem le_yx_total (a b : Widget) : (le_yx a b || le_yx b a) = true := by
  rw [Bool.or_eq_true, le_yx_iff, le_yx_iff]
  omega

theorem le_yx_antisymm_key {a b : Widget} (h1 : le_yx a b = true)
    (h2 : le_yx b a = true) :
    a.position.y = b.position.y ∧ a.position.x = b.position.x := by
  rw [le_yx_iff] at *
  omega

/-! ## List helpers -/

theorem getD_set_of_ne {l : List α} {i j : Nat} {a d : α} (h : i ≠ j) :
    (l.set i a).getD j d = l.getD j d := by
  rw [List.getD_eq_getElem?_getD, List.getD_eq_getElem?_getD, List.getElem?_set_ne h]

theorem getD_set_self_of_lt {l : List α} {i : Nat} {a d : α} (h : i < l.length) :
    (l.set i a).getD i d = a := by
  rw [List.getD_eq_getElem?_getD, List.getElem?_set_self h]
  rfl

theorem getD_eq_getElem {l : List α} {j : Nat} {d : α} (h : j < l.length) :
    l.getD j d = l[j] := by
  rw [List.getD_eq_getElem?_getD, List.getElem?_eq_getElem h]
  rfl

theorem forall2_of_getD {R : α → β → Prop} {l₁ : List α} {l₂ : List β} (d : α) (e : β)
    (hlen : l₁.length = l₂.length)
    (h : ∀ j, j < l₁.length → R (l₁.getD j d) (l₂.getD j e)) :
    List.Forall₂ R l₁ l₂ := by
  rw [List.forall₂_iff_get]
  refine ⟨hlen, fun i h₁ h₂ => ?_⟩
  have := h i h₁
  rw [getD_eq_getElem h₁, getD_eq_getElem h₂] at this
  exact this

theorem forall2_getD {R : α → β → Prop} {l₁ : List α} {l₂ : List β} (d : α) (e : β)
    (h : List.Forall₂ R l₁ l₂) (j : Nat) (hj : j < l₁.length) :
    R (l₁.getD j d) (l₂.getD j e) := by
  rw [List.forall₂_iff_get] at h
  have hr := h.2 j hj (h.1 ▸ hj)
  rw [getD_eq_getElem hj, getD_eq_getElem (h.1 ▸ hj)]
  exact hr

theorem forall2_mem_right {R : α → β → Prop} {l₁ : List α} {l₂ : List β}
    (h : List.Forall₂ R l₁ l₂) {b : β} (hb : b ∈ l₂) : ∃ a ∈ l₁, R a b := by
  induction h with
  | nil => cases hb
  | cons hr _ ih =>
    rcases List.mem_cons.mp hb with rfl | hb2
    · exact ⟨_, List.mem_cons_self _ _, hr⟩
    · obtain ⟨a, ha, har⟩ := ih hb2
      exact ⟨a, List.mem_cons_of_mem _ ha, har⟩

/-! ## Widget frame relations -/

/-- How compact-mode placement may change a widget: everything but `y` is
preserved, `y` can only decrease, and locked widgets are untouched. -/
def widget_frame (b o : Widget) : Prop :=
  o.id = b.id ∧ o.locked = b.locked ∧ o.is_dragged = b.is_dragged ∧
    o.original_position = b.original_position ∧
    o.position.x = b.position.x ∧ o.position.w = b.position.w ∧
    o.position.h = b.position.h ∧ o.position.y ≤ b.position.y ∧
    (b.locked = true → o = b)

/-- The coarser relation used for the frame claims: `id`, `locked`, `x`, `w`,
`h` preserved (only `y` and the transient fields may differ). -/
def widget_same_xwh (b o : Widget) : Prop :=
  o.id = b.id ∧ o.locked = b.locked ∧ o.position.x = b.position.x ∧
    o.position.w = b.position.w ∧ o.position.h = b.position.h

theorem widget_frame.to_same_xwh {b o : Widget} (h : widget_frame b o) :
    widget_same_xwh b o :=
  ⟨h.1, h.2.1, h.2.2.2.2.1, h.2.2.2.2.2.1, h.2.2.2.2.2.2.1⟩

theorem widget_same_xwh.refl (b : Widget) : widget_same_xwh b b :=
  ⟨rfl, rfl, rfl, rfl, rfl⟩

theorem widget_same_xwh.trans {a b c : Widget} (h1 : widget_same_xwh a b)
    (h2 : widget_same_xwh b c) : widget_same_xwh a c :=
  ⟨h2.1.trans h1.1, h2.2.1.trans h1.2.1, h2.2.2.1.trans h1.2.2.1,
    h2.2.2.2.1.trans h1.2.2.2.1, h2.2.2.2.2.trans h1.2.2.2.2⟩

/-! ## place_widgets lemmas -/

theorem place_widgets_frame (g : OccupiedGrid) (ws : List Widget) :
    List.Forall₂ widget_frame ws (place_widgets g ws) := by
  induction ws generalizing g with
  | nil => exact List.Forall₂.nil
  | cons b ws ih =>
    rw [place_widgets]
    split_ifs with hb
    · exact List.Forall₂.cons
        ⟨rfl, rfl, rfl, rfl, rfl, rfl, rfl, le_refl _, fun _ => rfl⟩ (ih g)
    · refine List.Forall₂.cons ?_ (ih _)
      refine ⟨rfl, rfl, rfl, rfl, (fhp_xwh g b.position).1, (fhp_xwh g b.position).2.1,
        (fhp_xwh g b.position).2.2, fhp_y_le g b.position, fun hc => absurd hc (by simp [hb])⟩

theorem place_widgets_length (g : OccupiedGrid) (ws : List Widget) :
    (place_widgets g ws).length = ws.length :=
  (place_widgets_frame g ws).length_eq.symm

/-- Locked widgets pass through `place_widgets` unchanged and in order. -/
theorem filter_locked_eq_of_frame {l₁ l₂ : List Widget}
    (h : List.Forall₂ widget_frame l₁ l₂) :
    l₂.filter (fun b => b.locked) = l₁.filter (fun b => b.locked) := by
  induction h with
  | nil => rfl
  | cons hr hl ih =>
    rename_i a b l₁ l₂
    by_cases ha : a.locked = true
    · rw [List.filter_cons, List.filter_cons, hr.2.2.2.2.2.2.2.2 ha, if_pos (by simp [ha]),
        if_pos (by simp [ha]), ih]
    · have hb : b.locked = false := by
        have := hr.2.1
        simp only [Bool.not_eq_true] at ha
        rw [this, ha]
      rw [List.filter_cons, List.filter_cons, if_neg (by simp [hb]),
        if_neg (by simp [Bool.not_eq_true] at ha; simp [ha]), ih]

theorem map_id_eq_of_same_xwh {l₁ l₂ : List Widget}
    (h : List.Forall₂ widget_same_xwh l₁ l₂) :
    l₂.map (fun b => b.id) = l₁.map (fun b => b.id) := by
  induction h with
  | nil => rfl
  | cons hr _ ih => simp only [List.map_cons, ih, hr.1]

/-- Projection equality on locked widgets from a pointwise relation. -/
theorem filter_locked_proj_eq {l₁ l₂ : List Widget}
    (h : List.Forall₂
      (fun a b => b.locked = a.locked ∧ (a.locked = true → b.id = a.id ∧ b.position = a.position))
      l₁ l₂) :
    (l₂.filter (fun b => b.locked)).map (fun b => (b.id, b.position))
      = (l₁.filter (fun b => b.locked)).map (fun b => (b.id, b.position)) := by
  induction h with
  | nil => rfl
  | cons hr hl ih =>
    rename_i a b l₁ l₂
    by_cases ha : a.locked = true
    · have hb : b.locked = true := by rw [hr.1, ha]
      rw [List.filter_cons, List.filter_cons, if_pos hb, if_pos ha,
        List.map_cons, List.map_cons, ih, (hr.2 ha).1, (hr.2 ha).2]
    · simp only [Bool.not_eq_true] at ha
      have hb : ¬ b.locked = true := by rw [hr.1, ha]; simp
      rw [List.filter_cons, List.filter_cons, if_neg hb,
        if_neg (by rw [ha]; simp : ¬ a.locked = true), ih]

/-! ## push_down and compact_except lemmas -/

theorem getD_set_widget {l : List Widget} {i j : Nat} {a : Widget} :
    (l.set i a).getD j default
      = if i = j ∧ j < l.length then a else l.getD j default := by
  split_ifs with h
  · obtain ⟨rfl, hl⟩ := h
    exact getD_set_self_of_lt hl
  · by_cases hij : i = j
    · subst hij
      have hl : ¬ i < l.length := fun hc => h ⟨rfl, hc⟩
      rw [List.getD_eq_getElem?_getD, List.getD_eq_getElem?_getD,
        List.getElem?_eq_none (by simp only [List.length_set]; omega),
        List.getElem?_eq_none (by omega)]
    · exact getD_set_of_ne hij

theorem push_step_length (p : Position) (ws : List Widget) (i : Nat) :
    (push_step p ws i).length = ws.length := by
  unfold push_step
  dsimp only
  split_ifs <;> simp [List.length_set]

theorem push_step_getD_of_ne {p : Position} {ws : List Widget} {i j : Nat}
    (hij : i ≠ j) :
    (push_step p ws i).getD j default = ws.getD j default := by
  unfold push_step
  dsimp only
  split_ifs <;> first | rfl | rw [getD_set_of_ne hij]

theorem push_step_same_xwh (p : Position) (ws : List Widget) (i j : Nat) :
    widget_same_xwh (ws.getD j default) ((push_step p ws i).getD j default) := by
  unfold push_step
  dsimp only
  split_ifs with h1 h2
  · rw [getD_set_widget]
    split_ifs with h3
    · obtain ⟨rfl, _⟩ := h3
      exact ⟨rfl, rfl, rfl, rfl, rfl⟩
    · exact widget_same_xwh.refl _
  · exact widget_same_xwh.refl _
  · exact widget_same_xwh.refl _

theorem push_down_length (p : Position) (ws : List Widget) (idxs : List Nat) :
    (push_down p ws idxs).length = ws.length := by
  induction idxs generalizing ws with
  | nil => rfl
  | cons i idxs ih =>
    rw [show push_down p ws (i :: idxs) = push_down p (push_step p ws i) idxs from rfl,
      ih, push_step_length]

theorem push_down_getD_of_not_mem {p : Position} {ws : List Widget} {idxs : List Nat}
    {j : Nat} (h : j ∉ idxs) :
    (push_down p ws idxs).getD j default = ws.getD j default := by
  induction idxs generalizing ws with
  | nil => rfl
  | cons i idxs ih =>
    have hij : i ≠ j := fun he => h (he ▸ List.mem_cons_self i idxs)
    have hj2 : j ∉ idxs := fun hm => h (List.mem_cons_of_mem i hm)
    rw [show push_down p ws (i :: idxs) = push_down p (push_step p ws i) idxs from rfl,
      ih hj2, push_step_getD_of_ne hij]

theorem push_down_same_xwh (p : Position) (ws : List Widget) (idxs : List Nat)
    (j : Nat) :
    widget_same_xwh (ws.getD j default) ((push_down p ws idxs).getD j default) := by
  induction idxs generalizing ws with
  | nil => exact widget_same_xwh.refl _
  | cons i idxs ih =>
    rw [show push_down p ws (i :: idxs) = push_down p (push_step p ws i) idxs from rfl]
    exact widget_same_xwh.trans (push_step_same_xwh p ws i j) (ih _)

theorem compact_step_fst_length (s : List Widget × OccupiedGrid) (i : Nat) :
    (compact_step s i).1.length = s.1.length := by
  unfold compact_step
  simp [List.length_set]

theorem compact_step_fst_getD_of_ne {s : List Widget × OccupiedGrid} {i j : Nat}
    (hij : i ≠ j) :
    (compact_step s i).1.getD j default = s.1.getD j default := by
  unfold compact_step
  exact getD_set_of_ne hij

theorem compact_step_same_xwh (s : List Widget × OccupiedGrid) (i j : Nat) :
    widget_same_xwh (s.1.getD j default) ((compact_step s i).1.getD j default) := by
  unfold compact_step
  simp only
  rw [getD_set_widget]
  split_ifs with h3
  · obtain ⟨rfl, _⟩ := h3
    have hx := fhp_xwh s.2 (s.1.getD i default).position
    exact ⟨rfl, rfl, hx.1, hx.2.1, hx.2.2⟩
  · exact widget_same_xwh.refl _

theorem compact_except_length (g : OccupiedGrid) (ws : List Widget) (idxs : List Nat) :
    (compact_except g ws idxs).length = ws.length := by
  suffices h : ∀ (s : List Widget × OccupiedGrid),
      (idxs.foldl compact_step s).1.length = s.1.length by
    exact h (ws, g)
  induction idxs with
  | nil => intro s; rfl
  | cons i idxs ih =>
    intro s
    rw [List.foldl_cons, ih, compact_step_fst_length]

theorem compact_except_getD_of_not_mem {g : OccupiedGrid} {ws : List Widget}
    {idxs : List Nat} {j : Nat} (h : j ∉ idxs) :
    (compact_except g ws idxs).getD j default = ws.getD j default := by
  suffices hs : ∀ (s : List Widget × OccupiedGrid),
      (idxs.foldl compact_step s).1.getD j default = s.1.getD j default by
    exact hs (ws, g)
  induction idxs with
  | nil => intro s; rfl
  | cons i idxs ih =>
    intro s
    have hij : i ≠ j := fun he => h (he ▸ List.mem_cons_self i idxs)
    rw [List.foldl_cons, ih (fun hm => h (List.mem_cons_of_mem i hm)),
      compact_step_fst_getD_of_ne hij]

theorem compact_except_same_xwh (g : OccupiedGrid) (ws : List Widget) (idxs : List Nat)
    (j : Nat) :
    widget_same_xwh (ws.getD j default) ((compact_except g ws idxs).getD j default) := by
  suffices hs : ∀ (s : List Widget × OccupiedGrid),
      widget_same_xwh (s.1.getD j default) ((idxs.foldl compact_step s).1.getD j default) by
    exact hs (ws, g)
  induction idxs with
  | nil => intro s; exact widget_same_xwh.refl _
  | cons i idxs ih =>
    intro s
    rw [List.foldl_cons]
    exact widget_same_xwh.trans (compact_step_same_xwh s i j) (ih _)

theorem mem_unlocked_indices {ws : List Widget} {di i : Nat} :
    i ∈ unlocked_indices ws di ↔
      i < ws.length ∧ i ≠ di ∧ (ws.getD i default).locked = false := by
  unfold unlocked_indices
  rw [(@sortB_perm Nat (fun i j =>
      decide ((ws.getD i default).position.y ≤ (ws.getD j default).position.y))
    (fun a b c h1 h2 => by simp only [decide_eq_true_eq] at h1 h2 ⊢; omega)
    (fun a b => by simp only [Bool.or_eq_true, decide_eq_true_eq]; omega) _).mem_iff]
  rw [List.mem_filter, List.mem_range]
  simp only [Bool.and_eq_true, bne_iff_ne, Bool.not_eq_true', ne_eq]

/-! ## Branch lemmas for the entry points -/

theorem optimize_layout_float {W : List Widget} {C : GridConfig} (hf : C.float = true) :
    optimize_layout W C = W.map (float_fix C) := by
  rw [optimize_layout, if_pos hf]

theorem optimize_layout_compact {W : List Widget} {C : GridConfig} (hf : C.float = false) :
    optimize_layout W C =
      place_widgets
        (register_all (OccupiedGrid.new C.columns)
          ((sortB le_yx W).filter fun b => b.locked))
        (sortB le_yx W) := by
  rw [optimize_layout, if_neg (by simp [hf])]

theorem resolve_conflicts_of_none {W : List Widget} {C : GridConfig} {did : String}
    (h : W.findIdx? (fun b => b.id == did) = none) :
    resolve_conflicts W C did = optimize_layout W C := by
  rw [resolve_conflicts, h]

theorem resolve_conflicts_of_findIdx {W : List Widget} {C : GridConfig} {did : String}
    {di : Nat} (hdi : W.findIdx? (fun b => b.id == did) = some di) :
    resolve_conflicts W C did = resolve_core W C di := by
  rw [resolve_conflicts, hdi]

theorem float_fix_locked_eq (C : GridConfig) (b : Widget) :
    (float_fix C b).locked = b.locked := by
  unfold float_fix
  split_ifs <;> rfl

theorem float_fix_id_eq (C : GridConfig) (b : Widget) :
    (float_fix C b).id = b.id := by
  unfold float_fix
  split_ifs <;> rfl

theorem float_fix_of_locked (C : GridConfig) {b : Widget} (h : b.locked = true) :
    float_fix C b = b := by
  unfold float_fix
  rw [if_pos h]

theorem float_fix_of_unlocked (C : GridConfig) {b : Widget} (h : b.locked = false) :
    float_fix C b = { b with position :=
      { b.position with
        x := min (max b.position.x 0) (C.columns - b.position.w),
        y := max b.position.y 0 } } := by
  unfold float_fix
  rw [if_neg (by simp [h])]

theorem filter_locked_map_float (C : GridConfig) (W : List Widget) :
    ((W.map (float_fix C)).filter fun b => b.locked) = W.filter fun b => b.locked := by
  induction W with
  | nil => rfl
  | cons b W ih =>
    simp only [List.map_cons, List.filter_cons, float_fix_locked_eq]
    split_ifs with hb
    · rw [float_fix_of_locked C hb, ih]
    · exact ih

/-! ## Pointwise lemmas for resolve_core -/

theorem marked_widgets_length (W : List Widget) (di : Nat) :
    (marked_widgets W di).length = W.length := by
  simp [marked_widgets, List.length_set]

theorem marked_widgets_getD_of_ne {W : List Widget} {di j : Nat} (h : di ≠ j) :
    (marked_widgets W di).getD j default = W.getD j default :=
  getD_set_of_ne h

theorem marked_widgets_getD_self {W : List Widget} {di : Nat} (h : di < W.length) :
    (marked_widgets W di).getD di default
      = { W.getD di default with is_dragged := true } :=
  getD_set_self_of_lt h

theorem marked_widgets_same_xwh (W : List Widget) (di j : Nat) :
    widget_same_xwh (W.getD j default) ((marked_widgets W di).getD j default) := by
  unfold marked_widgets
  rw [getD_set_widget]
  split_ifs with h
  · obtain ⟨rfl, _⟩ := h
    exact ⟨rfl, rfl, rfl, rfl, rfl⟩
  · exact widget_same_xwh.refl _

theorem marked_widgets_locked_proj (W : List Widget) (di j : Nat) :
    ((marked_widgets W di).getD j default).locked = (W.getD j default).locked ∧
      ((marked_widgets W di).getD j default).id = (W.getD j default).id ∧
      ((marked_widgets W di).getD j default).position = (W.getD j default).position := by
  unfold marked_widgets
  rw [getD_set_widget]
  split_ifs with h
  · obtain ⟨rfl, _⟩ := h
    exact ⟨rfl, rfl, rfl⟩
  · exact ⟨rfl, rfl, rfl⟩

theorem resolve_core_length (W : List Widget) (C : GridConfig) (di : Nat) :
    (resolve_core W C di).length = W.length := by
  unfold resolve_core
  rw [compact_except_length, push_down_length, marked_widgets_length]

theorem resolve_core_same_xwh (W : List Widget) (C : GridConfig) (di : Nat) (j : Nat) :
    widget_same_xwh (W.getD j default) ((resolve_core W C di).getD j default) := by
  unfold resolve_core
  exact widget_same_xwh.trans (marked_widgets_same_xwh W di j)
    (widget_same_xwh.trans (push_down_same_xwh _ _ _ j) (compact_except_same_xwh _ _ _ j))

/-- Locked widgets keep their id and position through `resolve_core`:
the push and compact phases skip locked indices entirely, and marking only
touches `is_dragged`. -/
theorem resolve_core_locked_proj (W : List Widget) (C : GridConfig) (di : Nat) (j : Nat)
    (hl : (W.getD j default).locked = true) :
    ((resolve_core W C di).getD j default).id = (W.getD j default).id ∧
      ((resolve_core W C di).getD j default).position = (W.getD j default).position := by
  unfold resolve_core
  dsimp only
  have h1 := marked_widgets_locked_proj W di j
  have hl1 : ((marked_widgets W di).getD j default).locked = true := by rw [h1.1, hl]
  have hp : j ∉ unlocked_indices (marked_widgets W di) di := by
    rw [mem_unlocked_indices]
    intro hc
    rw [hl1] at hc
    exact absurd hc.2.2 (by simp)
  have hc : j ∉ unlocked_indices
      (push_down ((marked_widgets W di).getD di default).position (marked_widgets W di)
        (unlocked_indices (marked_widgets W di) di)) di := by
    rw [mem_unlocked_indices]
    intro hcc
    rw [push_down_getD_of_not_mem hp, hl1] at hcc
    exact absurd hcc.2.2 (by simp)
  rw [compact_except_getD_of_not_mem hc, push_down_getD_of_not_mem hp]
  exact ⟨h1.2.1, h1.2.2⟩

theorem resolve_core_locked_flag (W : List Widget) (C : GridConfig) (di : Nat) (j : Nat) :
    ((resolve_core W C di).getD j default).locked = (W.getD j default).locked :=
  (resolve_core_same_xwh W C di j).2.1

theorem not_mem_unlocked_indices_self (ws : List Widget) (di : Nat) :
    di ∉ unlocked_indices ws di := by
  rw [mem_unlocked_indices]
  intro hc
  exact hc.2.1 rfl

/-- Shared helper: the locked projection of `optimize_layout` output is a
permutation of that of the input. -/
theorem optimize_locked_proj_perm (W : List Widget) (C : GridConfig) :
    (((optimize_layout W C).filter fun b => b.locked).map fun b => (b.id, b.position)).Perm
      ((W.filter fun b => b.locked).map fun b => (b.id, b.position)) := by
  by_cases hf : C.float = true
  · rw [optimize_layout_float hf, filter_locked_map_float]
  · have hf2 : C.float = false := by simpa using hf
    rw [optimize_layout_compact hf2, filter_locked_eq_of_frame (place_widgets_frame _ _)]
    exact ((sortB_perm le_yx_trans le_yx_total W).filter _).map _

/-- Claim C3, locked invariant: in both `optimize_layout` and
`resolve_conflicts`, every locked widget keeps its id and position (the
output's locked widgets, projected to `(id, position)`, are a permutation of
the input's; `optimize_layout` may reorder the list, `resolve_conflicts` may
additionally set `is_dragged` on a locked dragged widget).
`find_best_position` returns only a `Position` and no widget list, so there
is nothing to preserve there. -/
theorem claim_C3_locked_invariant (W : List Widget) (C : GridConfig) (did : String) :
    ((((optimize_layout W C).filter fun b => b.locked).map
        fun b => (b.id, b.position)).Perm
      ((W.filter fun b => b.locked).map fun b => (b.id, b.position)))
    ∧ ((((resolve_conflicts W C did).filter fun b => b.locked).map
        fun b => (b.id, b.position)).Perm
      ((W.filter fun b => b.locked).map fun b => (b.id, b.position))) := by
  refine ⟨optimize_locked_proj_perm W C, ?_⟩
  cases hdi : W.findIdx? (fun b => b.id == did) with
  | none =>
    rw [resolve_conflicts_of_none hdi]
    exact optimize_locked_proj_perm W C
  | some di =>
    rw [resolve_conflicts_of_findIdx hdi]
    have hf2 : List.Forall₂
        (fun a b => b.locked = a.locked ∧
          (a.locked = true → b.id = a.id ∧ b.position = a.position))
        W (resolve_core W C di) := by
      refine forall2_of_getD default default (resolve_core_length W C di).symm (fun j hj => ?_)
      exact ⟨resolve_core_locked_flag W C di j, fun hl => resolve_core_locked_proj W C di j hl⟩
    rw [filter_locked_proj_eq hf2]

/-- Claim C4, dragged-widget invariant: when the dragged id is present, the
widget at the found index keeps its id and position through
`resolve_conflicts` (only `is_dragged` is set), and the list length is
preserved. -/
theorem claim_C4_dragged_invariant (W : List Widget) (C : GridConfig) (did : String)
    (di : Nat) (_hnodup : (W.map fun b => b.id).Nodup)
    (hdi : W.findIdx? (fun b => b.id == did) = some di) :
    ((resolve_conflicts W C did).getD di default).position = (W.getD di default).position
    ∧ ((resolve_conflicts W C did).getD di default).id = (W.getD di default).id
    ∧ (resolve_conflicts W C did).length = W.length := by
  have hlt : di < W.length := (List.findIdx?_eq_some_iff_findIdx_eq.mp hdi).1
  rw [resolve_conflicts_of_findIdx hdi]
  unfold resolve_core
  dsimp only
  rw [compact_except_getD_of_not_mem (not_mem_unlocked_indices_self _ _),
    push_down_getD_of_not_mem (not_mem_unlocked_indices_self _ _),
    marked_widgets_getD_self hlt]
  exact ⟨rfl, rfl, by
    rw [compact_except_length, push_down_length, marked_widgets_length]⟩

/-- Witness for C4 at a concrete input. -/
theorem claim_C4_dragged_invariant_witness :
    ((resolve_conflicts [wid "a" 0 0 2 2, wid "b" 0 1 1 1] (cfg_compact 12)
        "a").getD 0 default).position
      = (([wid "a" 0 0 2 2, wid "b" 0 1 1 1] : List Widget).getD 0 default).position
    ∧ ((resolve_conflicts [wid "a" 0 0 2 2, wid "b" 0 1 1 1] (cfg_compact 12)
        "a").getD 0 default).id
      = (([wid "a" 0 0 2 2, wid "b" 0 1 1 1] : List Widget).getD 0 default).id
    ∧ (resolve_conflicts [wid "a" 0 0 2 2, wid "b" 0 1 1 1] (cfg_compact 12)
        "a").length
      = ([wid "a" 0 0 2 2, wid "b" 0 1 1 1] : List Widget).length :=
  claim_C4_dragged_invariant _ _ "a" 0 (by decide) (by decide)

/-- Claim C7, missing-drag-id fallback: when no widget has the dragged id,
`resolve_conflicts` coincides with `optimize_layout`. -/
theorem claim_C7_missing_id_fallback (W : List Widget) (C : GridConfig) (did : String)
    (h : ∀ b ∈ W, (b.id == did) = false) :
    resolve_conflicts W C did = optimize_layout W C := by
  rw [resolve_conflicts_of_none (List.findIdx?_eq_none_iff.mpr h)]

/-- Witness for C7 at a concrete input. -/
theorem claim_C7_missing_id_fallback_witness :
    resolve_conflicts [wid "a" 0 5 4 2] (cfg_compact 12) "nonexistent"
      = optimize_layout [wid "a" 0 5 4 2] (cfg_compact 12) :=
  claim_C7_missing_id_fallback _ _ "nonexistent" (by decide)

/-- Claim C6 as amended: in float mode, each non-locked widget gets
`y := max y 0` and `x := min (max x 0) (columns - w)` (Rust's
`x.max(0).min(columns - w)`), everything else (including list order and
locked widgets) is untouched, and the in-bounds guarantee
`0 ≤ x ∧ x + w ≤ columns` holds whenever `w ≤ columns`.  The original
claim's unconditional `x ∈ [0, columns - w]` fails when `w > columns`. -/
theorem claim_C6_float_mode (W : List Widget) (C : GridConfig) (hf : C.float = true)
    (j : Nat) (hj : j < W.length) :
    (optimize_layout W C).length = W.length
    ∧ ((W.getD j default).locked = true →
        (optimize_layout W C).getD j default = W.getD j default)
    ∧ ((W.getD j default).locked = false →
        ((optimize_layout W C).getD j default).id = (W.getD j default).id
        ∧ ((optimize_layout W C).getD j default).locked = false
        ∧ ((optimize_layout W C).getD j default).is_dragged
            = (W.getD j default).is_dragged
        ∧ ((optimize_layout W C).getD j default).position.w
            = (W.getD j default).position.w
        ∧ ((optimize_layout W C).getD j default).position.h
            = (W.getD j default).position.h
        ∧ ((optimize_layout W C).getD j default).position.y
            = max (W.getD j default).position.y 0
        ∧ ((optimize_layout W C).getD j default).position.x
            = min (max (W.getD j default).position.x 0)
                (C.columns - (W.getD j default).position.w)
        ∧ ((W.getD j default).position.w ≤ C.columns →
            0 ≤ ((optimize_layout W C).getD j default).position.x
            ∧ ((optimize_layout W C).getD j default).position.x
                + ((optimize_layout W C).getD j default).position.w ≤ C.columns)) := by
  rw [optimize_layout_float hf]
  have hg : (W.map (float_fix C)).getD j default = float_fix C (W.getD j default) := by
    rw [getD_eq_getElem (by simpa using hj), getD_eq_getElem hj, List.getElem_map]
  refine ⟨by simp, ?_, ?_⟩
  · intro hl
    rw [hg, float_fix_of_locked C hl]
  · intro hl
    rw [hg, float_fix_of_unlocked C hl]
    refine ⟨rfl, by simpa using hl, rfl, rfl, rfl, rfl, rfl, ?_⟩
    intro hwc
    constructor <;> simp only <;> omega

/-- Counterexample to C6 as stated: in float mode with `columns = 2` and a
widget of width 3, the clamped `x` is `-1`, outside `[0, columns - w]`
(which the claim asserts for every widget list and float config). -/
theorem claim_C6_counterexample :
    (([wid "a" 0 0 3 1] : List Widget).getD 0 default).locked = false
    ∧ (cfg_float 2).float = true
    ∧ ¬ (0 ≤ ((optimize_layout [wid "a" 0 0 3 1] (cfg_float 2)).getD 0
          default).position.x) := by
  refine ⟨rfl, rfl, ?_⟩
  decide

/-- Witness for C6 at a concrete input. -/
theorem claim_C6_float_mode_witness :
    (optimize_layout [wid "a" (-3) (-2) 2 1] (cfg_float 12)).length
        = ([wid "a" (-3) (-2) 2 1] : List Widget).length
    ∧ ((([wid "a" (-3) (-2) 2 1] : List Widget).getD 0 default).locked = true →
        (optimize_layout [wid "a" (-3) (-2) 2 1] (cfg_float 12)).getD 0 default
          = ([wid "a" (-3) (-2) 2 1] : List Widget).getD 0 default)
    ∧ ((([wid "a" (-3) (-2) 2 1] : List Widget).getD 0 default).locked = false →
        ((optimize_layout [wid "a" (-3) (-2) 2 1] (cfg_float 12)).getD 0 default).id
            = (([wid "a" (-3) (-2) 2 1] : List Widget).getD 0 default).id
        ∧ ((optimize_layout [wid "a" (-3) (-2) 2 1] (cfg_float 12)).getD 0
              default).locked = false
        ∧ ((optimize_layout [wid "a" (-3) (-2) 2 1] (cfg_float 12)).getD 0
              default).is_dragged
            = (([wid "a" (-3) (-2) 2 1] : List Widget).getD 0 default).is_dragged
        ∧ ((optimize_layout [wid "a" (-3) (-2) 2 1] (cfg_float 12)).getD 0
              default).position.w
            = (([wid "a" (-3) (-2) 2 1] : List Widget).getD 0 default).position.w
        ∧ ((optimize_layout [wid "a" (-3) (-2) 2 1] (cfg_float 12)).getD 0
              default).position.h
            = (([wid "a" (-3) (-2) 2 1] : List Widget).getD 0 default).position.h
        ∧ ((optimize_layout [wid "a" (-3) (-2) 2 1] (cfg_float 12)).getD 0
              default).position.y
            = max (([wid "a" (-3) (-2) 2 1] : List Widget).getD 0 default).position.y 0
        ∧ ((optimize_layout [wid "a" (-3) (-2) 2 1] (cfg_float 12)).getD 0
              default).position.x
            = min (max (([wid "a" (-3) (-2) 2 1] : List Widget).getD 0
                default).position.x 0)
              ((cfg_float 12).columns
                - (([wid "a" (-3) (-2) 2 1] : List Widget).getD 0 default).position.w)
        ∧ ((([wid "a" (-3) (-2) 2 1] : List Widget).getD 0 default).position.w
              ≤ (cfg_float 12).columns →
            0 ≤ ((optimize_layout [wid "a" (-3) (-2) 2 1] (cfg_float 12)).getD 0
                default).position.x
            ∧ ((optimize_layout [wid "a" (-3) (-2) 2 1] (cfg_float 12)).getD 0
                  default).position.x
                + ((optimize_layout [wid "a" (-3) (-2) 2 1] (cfg_float 12)).getD 0
                    default).position.w ≤ (cfg_float 12).columns)) :=
  claim_C6_float_mode [wid "a" (-3) (-2) 2 1] (cfg_float 12) rfl 0 (by decide)

/-- Claim C8 as amended: a deserialization failure in any argument of any of
the three operations yields an `Except.error` (never a panic) whose message
is `"Deserialization error: "` followed by the underlying parse failure; the
message is identical for all three operations, so it does not name the
operation.  Successful parses run the pure core. -/
theorem claim_C8_js_errors (e : String) (ws : List Widget) (nw : Widget)
    (cfg : GridConfig) (did : String) :
    optimize_layout_js (Except.error e) (Except.ok cfg)
        = Except.error (deserialization_error e)
    ∧ optimize_layout_js (Except.ok ws) (Except.error e)
        = Except.error (deserialization_error e)
    ∧ resolve_conflicts_js (Except.error e) (Except.ok cfg) did
        = Except.error (deserialization_error e)
    ∧ resolve_conflicts_js (Except.ok ws) (Except.error e) did
        = Except.error (deserialization_error e)
    ∧ find_best_position_js (Except.error e) (Except.ok nw) (Except.ok cfg)
        = Except.error (deserialization_error e)
    ∧ find_best_position_js (Except.ok ws) (Except.error e) (Except.ok cfg)
        = Except.error (deserialization_error e)
    ∧ find_best_position_js (Except.ok ws) (Except.ok nw) (Except.error e)
        = Except.error (deserialization_error e)
    ∧ deserialization_error e = "Deserialization error: " ++ e
    ∧ optimize_layout_js (Except.ok ws) (Except.ok cfg)
        = Except.ok (optimize_layout ws cfg)
    ∧ resolve_conflicts_js (Except.ok ws) (Except.ok cfg) did
        = Except.ok (resolve_conflicts ws cfg did)
    ∧ find_best_position_js (Except.ok ws) (Except.ok nw) (Except.ok cfg)
        = Except.ok (find_best_position ws nw cfg) :=
  ⟨rfl, rfl, rfl, rfl, rfl, rfl, rfl, rfl, rfl, rfl, rfl⟩

/-- Counterexample to C8 as stated: the error message for a parse failure is
the same string for all three operations and contains no operation name, so
it cannot "name the operation being invoked". -/
theorem claim_C8_counterexample :
    optimize_layout_js (Except.error "invalid type") (Except.ok (cfg_compact 12))
        = Except.error "Deserialization error: invalid type"
    ∧ resolve_conflicts_js (Except.error "invalid type") (Except.ok (cfg_compact 12)) "w"
        = Except.error "Deserialization error: invalid type"
    ∧ find_best_position_js (Except.error "invalid type") (Except.ok (wid "n" 0 0 1 1))
        (Except.ok (cfg_compact 12))
        = Except.error "Deserialization error: invalid type"
    ∧ contains_sub "Deserialization error: invalid type" "optimize" = false
    ∧ contains_sub "Deserialization error: invalid type" "Layout" = false
    ∧ contains_sub "Deserialization error: invalid type" "resolve" = false
    ∧ contains_sub "Deserialization error: invalid type" "Conflicts" = false
    ∧ contains_sub "Deserialization error: invalid type" "find" = false
    ∧ contains_sub "Deserialization error: invalid type" "Position" = false
    ∧ contains_sub "Deserialization error: invalid type" "invalid type" = true := by
  refine ⟨rfl, rfl, rfl, ?_, ?_, ?_, ?_, ?_, ?_, ?_⟩ <;> decide

/-- Claim C9, only `y` changes: in non-float `optimize_layout` the output is
pointwise related to the stable `(y, x)`-sort of the input (itself a
permutation of the input) by a relation preserving `id`, `locked`, `x`, `w`
and `h`; in `resolve_conflicts` with a present dragged id the output is
pointwise so related to the input itself.  In particular an out-of-range `x`
is left unrepaired in non-float mode. -/
theorem claim_C9_only_y_changes (W : List Widget) (C : GridConfig) (did : String)
    (di : Nat) :
    (C.float = false →
      List.Forall₂ widget_same_xwh (sortB le_yx W) (optimize_layout W C)
        ∧ (sortB le_yx W).Perm W)
    ∧ (W.findIdx? (fun b => b.id == did) = some di →
        List.Forall₂ widget_same_xwh W (resolve_conflicts W C did)) := by
  constructor
  · intro hf
    rw [optimize_layout_compact hf]
    exact ⟨(place_widgets_frame _ _).imp (fun a b h => h.to_same_xwh),
      sortB_perm le_yx_trans le_yx_total W⟩
  · intro hdi
    rw [resolve_conflicts_of_findIdx hdi]
    exact forall2_of_getD default default (resolve_core_length W C di).symm
      (fun j hj => resolve_core_same_xwh W C di j)

/-- Witness for C9 at a concrete input. -/
theorem claim_C9_only_y_changes_witness :
    (List.Forall₂ widget_same_xwh (sortB le_yx [wid "a" 0 5 4 2, wid "b" 0 1 1 1])
        (optimize_layout [wid "a" 0 5 4 2, wid "b" 0 1 1 1] (cfg_compact 12))
      ∧ (sortB le_yx [wid "a" 0 5 4 2, wid "b" 0 1 1 1]).Perm
          [wid "a" 0 5 4 2, wid "b" 0 1 1 1])
    ∧ List.Forall₂ widget_same_xwh [wid "a" 0 5 4 2, wid "b" 0 1 1 1]
        (resolve_conflicts [wid "a" 0 5 4 2, wid "b" 0 1 1 1] (cfg_compact 12) "a") :=
  ⟨(claim_C9_only_y_changes [wid "a" 0 5 4 2, wid "b" 0 1 1 1] (cfg_compact 12)
      "a" 0).1 rfl,
    (claim_C9_only_y_changes [wid "a" 0 5 4 2, wid "b" 0 1 1 1] (cfg_compact 12)
      "a" 0).2 (by decide)⟩

/-- Claim C10, output order: non-float `optimize_layout` returns the widgets
in the order of the stable `(y, x)`-sort of the input (`sortB le_yx W` is a
permutation of `W`, pairwise sorted by `(y, x)`, and keeps every class of
equal `(y, x)` keys in input order); float mode and `resolve_conflicts` with
a present dragged id keep the input list order. -/
theorem claim_C10_output_order (W : List Widget) (C : GridConfig) (did : String)
    (di : Nat) :
    (C.float = false →
      (optimize_layout W C).map (fun b => b.id) = (sortB le_yx W).map fun b => b.id)
    ∧ (sortB le_yx W).Perm W
    ∧ List.Pairwise (fun a b => le_yx a b = true) (sortB le_yx W)
    ∧ (∀ k : Int × Int,
        (sortB le_yx W).filter
            (fun b => decide (b.position.y = k.1) && decide (b.position.x = k.2))
          = W.filter
            fun b => decide (b.position.y = k.1) && decide (b.position.x = k.2))
    ∧ (C.float = true →
        (optimize_layout W C).map (fun b => b.id) = W.map fun b => b.id)
    ∧ (W.findIdx? (fun b => b.id == did) = some di →
        (resolve_conflicts W C did).map (fun b => b.id) = W.map fun b => b.id) := by
  refine ⟨?_, sortB_perm le_yx_trans le_yx_total W,
    sortB_sorted le_yx_trans le_yx_total W, ?_, ?_, ?_⟩
  · intro hf
    rw [optimize_layout_compact hf]
    exact map_id_eq_of_same_xwh
      ((place_widgets_frame _ _).imp fun a b h => h.to_same_xwh)
  · intro k
    refine sortB_filter_stable le_yx_trans le_yx_total W _ (fun a b ha hb => ?_)
    simp only [Bool.and_eq_true, decide_eq_true_eq] at ha hb
    rw [le_yx_iff]
    omega
  · intro hf
    rw [optimize_layout_float hf, List.map_map]
    exact List.map_congr_left fun b _ => float_fix_id_eq C b
  · intro hdi
    rw [resolve_conflicts_of_findIdx hdi]
    exact map_id_eq_of_same_xwh (forall2_of_getD default default
      (resolve_core_length W C di).symm fun j hj => resolve_core_same_xwh W C di j)

/-- Witness for C10 at a concrete input. -/
theorem claim_C10_output_order_witness :
    (optimize_layout [wid "a" 5 0 1 1, wid "b" 0 1 1 1] (cfg_compact 12)).map
        (fun b => b.id)
      = (sortB le_yx [wid "a" 5 0 1 1, wid "b" 0 1 1 1]).map (fun b => b.id)
    ∧ (optimize_layout [wid "a" 5 0 1 1, wid "b" 0 1 1 1] (cfg_float 12)).map
        (fun b => b.id)
      = ([wid "a" 5 0 1 1, wid "b" 0 1 1 1] : List Widget).map (fun b => b.id)
    ∧ (resolve_conflicts [wid "a" 5 0 1 1, wid "b" 0 1 1 1] (cfg_compact 12) "a").map
        (fun b => b.id)
      = ([wid "a" 5 0 1 1, wid "b" 0 1 1 1] : List Widget).map fun b => b.id :=
  ⟨(claim_C10_output_order [wid "a" 5 0 1 1, wid "b" 0 1 1 1] (cfg_compact 12)
      "a" 0).1 rfl,
    (claim_C10_output_order [wid "a" 5 0 1 1, wid "b" 0 1 1 1] (cfg_float 12)
      "a" 0).2.2.2.2.1 rfl,
    (claim_C10_output_order [wid "a" 5 0 1 1, wid "b" 0 1 1 1] (cfg_compact 12)
      "a" 0).2.2.2.2.2 (by decide)⟩

/-- Claim C5 as amended: the position returned by `find_best_position` is
either the found scan position — in bounds (`0 ≤ x`, `x + w ≤ columns`,
`0 ≤ y`), of the requested size, and not colliding with any existing widget
of positive size — or the sentinel `{x: 0, y: 1000, w, h}` fallback (so the
function is total and never fails).  The original claim's unconditional
in-bounds/no-overlap guarantee fails in the sentinel case. -/
theorem claim_C5_best_position (W : List Widget) (nw : Widget) (C : GridConfig)
    (hw : 0 < nw.position.w) (hh : 0 < nw.position.h) :
    find_best_position W nw C
        = { x := 0, y := 1000, w := nw.position.w, h := nw.position.h }
    ∨ (0 ≤ (find_best_position W nw C).x
        ∧ 0 ≤ (find_best_position W nw C).y
        ∧ (find_best_position W nw C).x + (find_best_position W nw C).w ≤ C.columns
        ∧ (find_best_position W nw C).w = nw.position.w
        ∧ (find_best_position W nw C).h = nw.position.h
        ∧ ∀ b ∈ W, 0 < b.position.w → 0 < b.position.h →
            blocks_collide (find_best_position W nw C) b.position = false) := by
  unfold find_best_position OccupiedGrid.find_best_position
  dsimp only
  split
  case h_2 => left; rfl
  case h_1 p heq =>
    right
    obtain ⟨yv, hymem, hin⟩ := List.exists_of_findSome?_eq_some heq
    obtain ⟨xv, hxmem, hx⟩ := List.exists_of_findSome?_eq_some hin
    split_ifs at hx with hcp
    · rw [Option.some.injEq] at hx
      subst hx
      rw [can_place_at_eq_true_iff] at hcp
      obtain ⟨h1, h2, h3, h4⟩ := hcp
      rw [register_all_columns] at h3
      refine ⟨h1, h2, h3, rfl, rfl, fun b hb hbw hbh => ?_⟩
      by_contra hcol
      rw [Bool.not_eq_false] at hcol
      obtain ⟨c, hc1, hc2⟩ := exists_shared_cell hcol hw hh hbw hbh
      exact h4 c hc1 (mem_register_all.mpr (Or.inl ⟨b, hb, hc2⟩))

set_option maxRecDepth 10000 in
/-- Counterexample to C5 as stated: with `columns = 0` and a `1 × 1` widget,
the sentinel `{x: 0, y: 1000, w: 1, h: 1}` is returned, violating
`x + w ≤ columns`. -/
theorem claim_C5_counterexample :
    0 < (wid "n" 0 0 1 1).position.w
    ∧ 0 < (wid "n" 0 0 1 1).position.h
    ∧ find_best_position [] (wid "n" 0 0 1 1) (cfg_compact 0)
        = { x := 0, y := 1000, w := 1, h := 1 }
    ∧ ¬ ((find_best_position [] (wid "n" 0 0 1 1) (cfg_compact 0)).x
          + (find_best_position [] (wid "n" 0 0 1 1) (cfg_compact 0)).w
        ≤ (cfg_compact 0).columns) := by
  refine ⟨by decide, by decide, by decide, by decide⟩

/-- Witness for C5 at a concrete input (a found, valid position). -/
theorem claim_C5_best_position_witness :
    find_best_position [wid "a" 0 0 2 2] (wid "n" 0 0 1 1) (cfg_compact 12)
        = { x := 0, y := 1000,
            w := (wid "n" 0 0 1 1).position.w, h := (wid "n" 0 0 1 1).position.h }
    ∨ (0 ≤ (find_best_position [wid "a" 0 0 2 2] (wid "n" 0 0 1 1) (cfg_compact 12)).x
        ∧ 0 ≤ (find_best_position [wid "a" 0 0 2 2] (wid "n" 0 0 1 1) (cfg_compact 12)).y
        ∧ (find_best_position [wid "a" 0 0 2 2] (wid "n" 0 0 1 1) (cfg_compact 12)).x
            + (find_best_position [wid "a" 0 0 2 2] (wid "n" 0 0 1 1) (cfg_compact 12)).w
          ≤ (cfg_compact 12).columns
        ∧ (find_best_position [wid "a" 0 0 2 2] (wid "n" 0 0 1 1) (cfg_compact 12)).w
            = (wid "n" 0 0 1 1).position.w
        ∧ (find_best_position [wid "a" 0 0 2 2] (wid "n" 0 0 1 1) (cfg_compact 12)).h
            = (wid "n" 0 0 1 1).position.h
        ∧ ∀ b ∈ ([wid "a" 0 0 2 2] : List Widget),
            0 < b.position.w → 0 < b.position.h →
              blocks_collide
                (find_best_position [wid "a" 0 0 2 2] (wid "n" 0 0 1 1) (cfg_compact 12))
                b.position = false) :=
  claim_C5_best_position [wid "a" 0 0 2 2] (wid "n" 0 0 1 1) (cfg_compact 12)
    (by decide) (by decide)

/-! ## No-overlap invariant of compact placement (claim C1) -/

/-- Key geometric step: if `b` sorts no later than `w` under `(y, x)` and the
two do not collide, then raising `b` (same `x`, `w`, `h`, smaller or equal
`y`) still does not collide with `w`. -/
theorem collide_false_of_raised {b w : Widget} {q : Position}
    (hle : le_yx b w = true)
    (hbw : blocks_collide b.position w.position = false)
    (hqx : q.x = b.position.x) (hqw : q.w = b.position.w)
    (hqh : q.h = b.position.h) (hqy : q.y ≤ b.position.y)
    (hwh : 0 < w.position.h) :
    blocks_collide q w.position = false := by
  rw [le_yx_iff] at hle
  rw [blocks_collide_eq_false_iff] at hbw ⊢
  omega

/-- The placement loop keeps all placed widgets pairwise disjoint, provided
the input is sorted by `(y, x)`, pairwise disjoint, of positive sizes, its
non-locked widgets do not collide with the seed rectangles `G`, its locked
widgets are among `G`, and the grid is exactly the cells of `G`. -/
theorem place_widgets_no_overlap (ws : List Widget) (g : OccupiedGrid) (G : List Position)
    (hmem : ∀ c : Int × Int, c ∈ g.positions ↔ ∃ r ∈ G, c ∈ r.cells)
    (hGpos : ∀ r ∈ G, 0 < r.w ∧ 0 < r.h)
    (hwpos : ∀ b ∈ ws, 0 < b.position.w ∧ 0 < b.position.h)
    (hfree : ∀ b ∈ ws, b.locked = false → ∀ r ∈ G, blocks_collide b.position r = false)
    (hlockedG : ∀ b ∈ ws, b.locked = true → b.position ∈ G)
    (hpw : List.Pairwise (fun a b => blocks_collide a.position b.position = false) ws)
    (hsorted : List.Pairwise (fun a b => le_yx a b = true) ws) :
    List.Pairwise (fun a b => blocks_collide a.position b.position = false)
      (place_widgets g ws)
    ∧ ∀ o ∈ place_widgets g ws, o.locked = false →
        ∀ r ∈ G, blocks_collide o.position r = false := by
  induction ws generalizing g G with
  | nil => exact ⟨List.Pairwise.nil, fun o ho => absurd ho (List.not_mem_nil o)⟩
  | cons b ws ih =>
    rw [place_widgets]
    by_cases hb : b.locked = true
    · rw [if_pos hb]
      obtain ⟨ihpw, ihinv⟩ := ih g G hmem hGpos
        (fun w hw => hwpos w (List.mem_cons_of_mem b hw))
        (fun w hw => hfree w (List.mem_cons_of_mem b hw))
        (fun w hw => hlockedG w (List.mem_cons_of_mem b hw))
        (List.Pairwise.sublist (List.sublist_cons_self b ws) hpw)
        (List.Pairwise.sublist (List.sublist_cons_self b ws) hsorted)
      refine ⟨List.pairwise_cons.mpr ⟨fun o ho => ?_, ihpw⟩, fun o ho => ?_⟩
      · obtain ⟨w, hwmem, hfr⟩ := forall2_mem_right (place_widgets_frame g ws) ho
        by_cases hol : w.locked = true
        · rw [hfr.2.2.2.2.2.2.2.2 hol]
          exact List.rel_of_pairwise_cons hpw hwmem
        · have holo : o.locked = false := by
            rw [hfr.2.1]
            simpa using hol
          rw [blocks_collide_symm]
          exact ihinv o ho holo b.position (hlockedG b (List.mem_cons_self b ws) hb)
      · rcases List.mem_cons.mp ho with rfl | ho2
        · intro hol
          rw [hb] at hol
          cases hol
        · exact ihinv o ho2
    · rw [if_neg hb]
      have hbf : b.locked = false := by simpa using hb
      have hbpos := hwpos b (List.mem_cons_self b ws)
      have hpx := (fhp_xwh g b.position).1
      have hpw2 := (fhp_xwh g b.position).2.1
      have hph := (fhp_xwh g b.position).2.2
      have hpy := fhp_y_le g b.position
      have hd : ∀ r ∈ G, blocks_collide (g.find_highest_position b.position) r = false := by
        intro r hr
        rcases fhp_eq_or_can_place g b.position with heq | hcp
        · rw [heq]
          exact hfree b (List.mem_cons_self b ws) hbf r hr
        · by_contra hcol
          rw [Bool.not_eq_false] at hcol
          obtain ⟨c, hc1, hc2⟩ := exists_shared_cell hcol
            (by rw [hpw2]; exact hbpos.1) (by rw [hph]; exact hbpos.2)
            (hGpos r hr).1 (hGpos r hr).2
          exact (can_place_at_eq_true_iff.mp hcp).2.2.2 c hc1
            (hmem c |>.mpr ⟨r, hr, hc2⟩)
      obtain ⟨ihpw, ihinv⟩ := ih (g.register_occupied (g.find_highest_position b.position))
        (g.find_highest_position b.position :: G)
        (fun c => by
          rw [mem_register_occupied, hmem c]
          constructor
          · rintro (hc | ⟨r, hr, hc⟩)
            · exact ⟨_, List.mem_cons_self _ _, hc⟩
            · exact ⟨r, List.mem_cons_of_mem _ hr, hc⟩
          · rintro ⟨r, hr, hc⟩
            rcases List.mem_cons.mp hr with rfl | hr2
            · exact Or.inl hc
            · exact Or.inr ⟨r, hr2, hc⟩)
        (fun r hr => by
          rcases List.mem_cons.mp hr with rfl | hr2
          · exact ⟨by rw [hpw2]; exact hbpos.1, by rw [hph]; exact hbpos.2⟩
          · exact hGpos r hr2)
        (fun w hw => hwpos w (List.mem_cons_of_mem b hw))
        (fun w hw hwl r hr => by
          rcases List.mem_cons.mp hr with rfl | hr2
          · rw [blocks_collide_symm]
            exact collide_false_of_raised (List.rel_of_pairwise_cons hsorted hw)
              (List.rel_of_pairwise_cons hpw hw) hpx hpw2 hph hpy
              (hwpos w (List.mem_cons_of_mem b hw)).2
          · exact hfree w (List.mem_cons_of_mem b hw) hwl r hr2)
        (fun w hw hwl => List.mem_cons_of_mem _ (hlockedG w (List.mem_cons_of_mem b hw) hwl))
        (List.Pairwise.sublist (List.sublist_cons_self b ws) hpw)
        (List.Pairwise.sublist (List.sublist_cons_self b ws) hsorted)
      refine ⟨List.pairwise_cons.mpr ⟨fun o ho => ?_, ihpw⟩, fun o ho => ?_⟩
      · obtain ⟨w, hwmem, hfr⟩ := forall2_mem_right (place_widgets_frame _ _) ho
        by_cases hol : w.locked = true
        · rw [hfr.2.2.2.2.2.2.2.2 hol]
          exact hd w.position (hlockedG w (List.mem_cons_of_mem b hwmem) hol)
        · have holo : o.locked = false := by
            rw [hfr.2.1]
            simpa using hol
          rw [blocks_collide_symm]
          exact ihinv o ho holo _ (List.mem_cons_self _ _)
      · rcases List.mem_cons.mp ho with rfl | ho2
        · intro _ r hr
          exact hd r hr
        · intro hol r hr
          exact ihinv o ho2 hol r (List.mem_cons_of_mem _ hr)

/-- Claim C1 as amended: if all input widgets have positive width and height
and no two distinct input widgets overlap (strengthened from the original "no
pre-existing overlapping locked widgets", which two overlapping non-locked
widgets refute), then no two widgets in the non-float `optimize_layout`
output overlap. -/
theorem claim_C1_no_overlap (W : List Widget) (C : GridConfig) (hf : C.float = false)
    (hpos : ∀ b ∈ W, 0 < b.position.w ∧ 0 < b.position.h)
    (hdisj : List.Pairwise (fun a b => blocks_collide a.position b.position = false) W) :
    List.Pairwise (fun a b => blocks_collide a.position b.position = false)
      (optimize_layout W C) := by
  rw [optimize_layout_compact hf]
  have hperm : (sortB le_yx W).Perm W := sortB_perm le_yx_trans le_yx_total W
  have hsymm : ∀ {x y : Widget}, blocks_collide x.position y.position = false →
      blocks_collide y.position x.position = false := by
    intro x y h
    rw [blocks_collide_symm]
    exact h
  have hdisj' : List.Pairwise
      (fun a b => blocks_collide a.position b.position = false) (sortB le_yx W) :=
    (hperm.pairwise_iff hsymm).mpr hdisj
  refine (place_widgets_no_overlap (sortB le_yx W) _
    (((sortB le_yx W).filter fun b => b.locked).map fun b => b.position)
    (fun c => ?_) (fun r hr => ?_) (fun b hb => hpos b (hperm.subset hb))
    (fun b hb hbl r hr => ?_) (fun b hb hbl => ?_) hdisj'
    (sortB_sorted le_yx_trans le_yx_total W)).1
  · rw [mem_register_all]
    simp only [OccupiedGrid.new, List.not_mem_nil, or_false, List.mem_map]
    constructor
    · rintro ⟨b, hb, hc⟩
      exact ⟨b.position, ⟨b, hb, rfl⟩, hc⟩
    · rintro ⟨r, ⟨b, hb, rfl⟩, hc⟩
      exact ⟨b, hb, hc⟩
  · obtain ⟨b, hb, rfl⟩ := List.mem_map.mp hr
    exact hpos b (hperm.subset (List.mem_filter.mp hb).1)
  · obtain ⟨l, hl, rfl⟩ := List.mem_map.mp hr
    have hlmem := List.mem_filter.mp hl
    have hne : b ≠ l := by
      intro he
      rw [he, hlmem.2] at hbl
      cases hbl
    exact List.Pairwise.forall (fun x y h => hsymm h) hdisj' hb hlmem.1 hne
  · exact List.mem_map.mpr ⟨b, List.mem_filter.mpr ⟨hb, hbl⟩, rfl⟩

/-- Counterexample to C1 as stated: two overlapping non-locked widgets at the
same spot (no locked widgets at all, so "no pre-existing overlapping locked
widgets" holds) are both placed at `(0, 0)` and still overlap in the
output. -/
theorem claim_C1_counterexample :
    (∀ a ∈ ([wid "a" 0 0 2 2, wid "b" 0 0 2 2] : List Widget), a.locked = false)
    ∧ (cfg_compact 12).float = false
    ∧ ((optimize_layout [wid "a" 0 0 2 2, wid "b" 0 0 2 2] (cfg_compact 12)).getD 0
          default).id
        ≠ ((optimize_layout [wid "a" 0 0 2 2, wid "b" 0 0 2 2] (cfg_compact 12)).getD 1
          default).id
    ∧ blocks_collide
        ((optimize_layout [wid "a" 0 0 2 2, wid "b" 0 0 2 2] (cfg_compact 12)).getD 0
          default).position
        ((optimize_layout [wid "a" 0 0 2 2, wid "b" 0 0 2 2] (cfg_compact 12)).getD 1
          default).position = true := by
  exact ⟨by decide, rfl, by decide, by decide⟩

/-! ## Idempotence machinery (claim C2)

`grid_after g l` is the grid state of the placement loop after the processed
prefix `l` of its output: the loop registers exactly the non-locked outputs
(locked widgets were registered before the loop). -/

def grid_after (g : OccupiedGrid) (l : List Widget) : OccupiedGrid :=
  l.foldl (fun g w => if w.locked then g else g.register_occupied w.position) g

theorem grid_after_nil (g : OccupiedGrid) : grid_after g [] = g := rfl

theorem grid_after_cons (g : OccupiedGrid) (w : Widget) (l : List Widget) :
    grid_after g (w :: l)
      = grid_after (if w.locked then g else g.register_occupied w.position) l := rfl

theorem grid_after_columns (g : OccupiedGrid) (l : List Widget) :
    (grid_after g l).columns = g.columns := by
  induction l generalizing g with
  | nil => rfl
  | cons w l ih =>
    rw [grid_after_cons, ih]
    split_ifs <;> rfl

theorem mem_grid_after {g : OccupiedGrid} {l : List Widget} {c : Int × Int} :
    c ∈ (grid_after g l).positions ↔
      c ∈ g.positions ∨ ∃ w ∈ l, w.locked = false ∧ c ∈ w.position.cells := by
  induction l generalizing g with
  | nil => simp [grid_after_nil]
  | cons w l ih =>
    rw [grid_after_cons, ih]
    by_cases hw : w.locked = true
    · rw [if_pos hw]
      constructor
      · rintro (hc | ⟨v, hv, hvl, hc⟩)
        · exact Or.inl hc
        · exact Or.inr ⟨v, List.mem_cons_of_mem w hv, hvl, hc⟩
      · rintro (hc | ⟨v, hv, hvl, hc⟩)
        · exact Or.inl hc
        · rcases List.mem_cons.mp hv with rfl | hv2
          · rw [hw] at hvl
            cases hvl
          · exact Or.inr ⟨v, hv2, hvl, hc⟩
    · rw [if_neg hw]
      simp only [Bool.not_eq_true] at hw
      constructor
      · rintro (hc | ⟨v, hv, hvl, hc⟩)
        · rcases mem_register_occupied.mp hc with hc2 | hc2
          · exact Or.inr ⟨w, List.mem_cons_self w l, hw, hc2⟩
          · exact Or.inl hc2
        · exact Or.inr ⟨v, List.mem_cons_of_mem w hv, hvl, hc⟩
      · rintro (hc | ⟨v, hv, hvl, hc⟩)
        · exact Or.inl (mem_register_occupied.mpr (Or.inr hc))
        · rcases List.mem_cons.mp hv with rfl | hv2
          · exact Or.inl (mem_register_occupied.mpr (Or.inl hc))
          · exact Or.inr ⟨v, hv2, hvl, hc⟩

theorem getD_mem {l : List α} [Inhabited α] {i : Nat} (h : i < l.length) :
    l.getD i default ∈ l := by
  rw [getD_eq_getElem h]
  exact List.getElem_mem h

theorem mem_take_getD {l : List α} [Inhabited α] {j : Nat} {w : α} (h : w ∈ l.take j) :
    ∃ i, i < j ∧ i < l.length ∧ l.getD i default = w := by
  obtain ⟨i, hi, heq⟩ := List.getElem_of_mem h
  rw [List.length_take] at hi
  refine ⟨i, by omega, by omega, ?_⟩
  rw [getD_eq_getElem (by omega)]
  rw [List.getElem_take] at heq
  exact heq

theorem getD_mem_take {l : List α} [Inhabited α] {i j : Nat} (hij : i < j)
    (hi : i < l.length) :
    l.getD i default ∈ l.take j := by
  rw [getD_eq_getElem hi]
  have hlt : i < (l.take j).length := by
    rw [List.length_take]
    omega
  have heq : (l.take j)[i] = l[i] := List.getElem_take l
  rw [← heq]
  exact List.getElem_mem hlt

/-- Per-index specification of the placement loop: locked widgets are
untouched; a placed widget either kept its input position or was placed on a
spot free in the grid at its turn; and the loop stopped, so either the final
`y` is at most 0 or the row above is not placeable in the grid at its
turn. -/
theorem place_widgets_spec (g : OccupiedGrid) (ws : List Widget) (j : Nat)
    (hj : j < ws.length) :
    ((ws.getD j default).locked = true →
      (place_widgets g ws).getD j default = ws.getD j default)
    ∧ ((ws.getD j default).locked = false →
        ((place_widgets g ws).getD j default).position = (ws.getD j default).position
        ∨ (grid_after g ((place_widgets g ws).take j)).can_place_at
            ((place_widgets g ws).getD j default).position = true)
    ∧ ((ws.getD j default).locked = false →
        ((place_widgets g ws).getD j default).position.y ≤ 0
        ∨ (grid_after g ((place_widgets g ws).take j)).can_place_at
            { ((place_widgets g ws).getD j default).position with
              y := ((place_widgets g ws).getD j default).position.y - 1 } = false) := by
  induction ws generalizing g j with
  | nil => cases hj
  | cons b ws ih =>
    rw [place_widgets]
    by_cases hb : b.locked = true
    · rw [if_pos hb]
      cases j with
      | zero =>
        refine ⟨fun _ => by rw [List.getD_cons_zero, List.getD_cons_zero], ?_, ?_⟩ <;>
          · intro hl
            rw [List.getD_cons_zero] at hl
            rw [hb] at hl
            cases hl
      | succ j =>
        have hj2 : j < ws.length := by simpa using hj
        have hgrid : grid_after g ((b :: place_widgets g ws).take (j + 1))
            = grid_after g ((place_widgets g ws).take j) := by
          rw [List.take_succ_cons, grid_after_cons, if_pos hb]
        rw [List.getD_cons_succ, List.getD_cons_succ, hgrid]
        exact ih g j hj2
    · rw [if_neg hb]
      have hbf : b.locked = false := by simpa using hb
      cases j with
      | zero =>
        refine ⟨fun hl => ?_, fun _ => ?_, fun _ => ?_⟩
        · rw [List.getD_cons_zero] at hl
          rw [hbf] at hl
          cases hl
        · rw [List.getD_cons_zero, List.getD_cons_zero, List.take_zero, grid_after_nil]
          exact fhp_eq_or_can_place g b.position
        · rw [List.getD_cons_zero, List.take_zero, grid_after_nil]
          exact fhp_stop g b.position
      | succ j =>
        have hj2 : j < ws.length := by simpa using hj
        have hgrid : grid_after g
            (({ b with position := g.find_highest_position b.position }
                :: place_widgets (g.register_occupied (g.find_highest_position b.position)) ws).take
              (j + 1))
            = grid_after (g.register_occupied (g.find_highest_position b.position))
                ((place_widgets (g.register_occupied (g.find_highest_position b.position)) ws).take j) := by
          rw [List.take_succ_cons, grid_after_cons, if_neg (by simp [hbf])]
        rw [List.getD_cons_succ, List.getD_cons_succ, hgrid]
        exact ih _ j hj2

theorem can_place_at_eq_false_iff {g : OccupiedGrid} {pos : Position} :
    g.can_place_at pos = false ↔
      pos.x < 0 ∨ pos.y < 0 ∨ pos.x + pos.w > g.columns
      ∨ ∃ c ∈ pos.cells, c ∈ g.positions := by
  rw [← Bool.not_eq_true, can_place_at_eq_true_iff]
  constructor
  · intro h
    by_cases h1 : pos.x < 0
    · exact Or.inl h1
    by_cases h2 : pos.y < 0
    · exact Or.inr (Or.inl h2)
    by_cases h3 : pos.x + pos.w > g.columns
    · exact Or.inr (Or.inr (Or.inl h3))
    refine Or.inr (Or.inr (Or.inr ?_))
    by_contra hc
    push_neg at hc
    exact h ⟨by omega, by omega, by omega, hc⟩
  · rintro (h | h | h | ⟨c, hc1, hc2⟩) ⟨h1, h2, h3, h4⟩
    · omega
    · omega
    · omega
    · exact h4 c hc1 hc2

/-- Every non-locked widget of the placement output is supported: its `y` is
at most 0, or its `x`-extent is out of bounds, or some cell of the
one-higher test rectangle is occupied — by the initial grid, or by an earlier
placed non-locked widget that moreover sorts no later under `(y, x)`.
The final condition is what survives re-sorting the output. -/
theorem place_widgets_cert (g : OccupiedGrid) (ws : List Widget)
    (hsorted : List.Pairwise (fun a b => le_yx a b = true) ws)
    (j : Nat) (hj : j < (place_widgets g ws).length)
    (hunl : ((place_widgets g ws).getD j default).locked = false) :
    ((place_widgets g ws).getD j default).position.y ≤ 0
    ∨ ((place_widgets g ws).getD j default).position.x < 0
    ∨ ((place_widgets g ws).getD j default).position.x
        + ((place_widgets g ws).getD j default).position.w > g.columns
    ∨ ∃ c, c ∈ Position.cells
          { ((place_widgets g ws).getD j default).position with
            y := ((place_widgets g ws).getD j default).position.y - 1 }
        ∧ (c ∈ g.positions
          ∨ ∃ i, i < j
              ∧ ((place_widgets g ws).getD i default).locked = false
              ∧ c ∈ ((place_widgets g ws).getD i default).position.cells
              ∧ le_yx ((place_widgets g ws).getD i default)
                  ((place_widgets g ws).getD j default) = true) := by
  have hlen : (place_widgets g ws).length = ws.length := place_widgets_length g ws
  have hjw : j < ws.length := hlen ▸ hj
  have hframe := place_widgets_frame g ws
  have hfr_j := forall2_getD default default hframe j hjw
  have hlock_j : (ws.getD j default).locked = false := by
    rw [← hunl]
    exact hfr_j.2.1.symm
  obtain ⟨hspec1, hspec2, hspec3⟩ := place_widgets_spec g ws j hjw
  by_cases hy : ((place_widgets g ws).getD j default).position.y ≤ 0
  · exact Or.inl hy
  by_cases hx1 : ((place_widgets g ws).getD j default).position.x < 0
  · exact Or.inr (Or.inl hx1)
  by_cases hx2 : ((place_widgets g ws).getD j default).position.x
      + ((place_widgets g ws).getD j default).position.w > g.columns
  · exact Or.inr (Or.inr (Or.inl hx2))
  refine Or.inr (Or.inr (Or.inr ?_))
  rcases hspec3 hlock_j with hy2 | hstop
  · omega
  rw [can_place_at_eq_false_iff] at hstop
  have hcols := grid_after_columns g ((place_widgets g ws).take j)
  rcases hstop with hb1 | hb2 | hb3 | ⟨c, hc1, hc2⟩
  · dsimp only at hb1
    omega
  · dsimp only at hb2
    omega
  · dsimp only at hb3
    rw [hcols] at hb3
    omega
  rcases mem_grid_after.mp hc2 with hcg | ⟨w, hwmem, hwl, hcw⟩
  · exact ⟨c, hc1, Or.inl hcg⟩
  obtain ⟨i, hij, hiw, hieq⟩ := mem_take_getD hwmem
  by_cases hle : le_yx ((place_widgets g ws).getD i default)
      ((place_widgets g ws).getD j default) = true
  · exact ⟨c, hc1, Or.inr ⟨i, hij, by rw [hieq]; exact hwl,
      by rw [hieq]; exact hcw, hle⟩⟩
  exfalso
  have hiw2 : i < ws.length := hlen ▸ hiw
  have hfr_i := forall2_getD default default hframe i hiw2
  rw [← hieq] at hwl hcw
  rw [le_yx_iff] at hle
  have hcw2 := Position.mem_cells.mp hcw
  have hc1m := Position.mem_cells.mp hc1
  dsimp only at hc1m
  -- the shared cell lies inside the widget's own final rectangle
  have hcq : c ∈ ((place_widgets g ws).getD j default).position.cells := by
    rw [Position.mem_cells]
    omega
  rcases hspec2 hlock_j with horip | hcp
  · -- never moved: contradiction with sortedness of the input
    have hsort_ij : le_yx (ws.getD i default) (ws.getD j default) = true := by
      have hpg := List.pairwise_iff_getElem.mp hsorted i j hiw2 hjw hij
      rwa [← getD_eq_getElem hiw2, ← getD_eq_getElem hjw] at hpg
    rw [le_yx_iff] at hsort_ij
    have he1 : ((place_widgets g ws).getD i default).position.x
        = (ws.getD i default).position.x := hfr_i.2.2.2.2.1
    have he2 : ((place_widgets g ws).getD i default).position.y
        ≤ (ws.getD i default).position.y := hfr_i.2.2.2.2.2.2.2.1
    have he3 : ((place_widgets g ws).getD j default).position.y
        = (ws.getD j default).position.y := by rw [horip]
    have he4 : ((place_widgets g ws).getD j default).position.x
        = (ws.getD j default).position.x := by rw [horip]
    omega
  · -- moved: its final spot was free, contradicting the shared cell
    refine (can_place_at_eq_true_iff.mp hcp).2.2.2 c hcq ?_
    rw [mem_grid_after]
    exact Or.inr ⟨(place_widgets g ws).getD i default, getD_mem_take hij hiw, hwl, hcw⟩

theorem countP_take_mono {l : List α} {p : α → Bool} {i j : Nat} (hij : i ≤ j) :
    (l.take i).countP p ≤ (l.take j).countP p := by
  have h1 : l.take i = (l.take j).take i := by
    rw [List.take_take]
    congr 1
    omega
  rw [h1]
  exact List.Sublist.countP_le p (List.take_sublist i (l.take j))

theorem countP_take_succ_of_true {l : List α} [Inhabited α] {p : α → Bool} {i : Nat}
    (hi : i < l.length) (hp : p (l.getD i default) = true) :
    (l.take (i + 1)).countP p = (l.take i).countP p + 1 := by
  rw [List.take_succ, List.countP_append, List.getElem?_eq_getElem hi]
  rw [getD_eq_getElem hi] at hp
  simp [hp]

/-- The element at index `j` sits in the filtered list at index
`(l.take j).countP p`. -/
theorem filter_index_of_getD {l : List α} [Inhabited α] {p : α → Bool} :
    ∀ {j : Nat}, j < l.length → p (l.getD j default) = true →
      (l.take j).countP p < (l.filter p).length
      ∧ (l.filter p).getD ((l.take j).countP p) default = l.getD j default := by
  induction l with
  | nil => intro j hj _; exact absurd hj (by simp)
  | cons a l ih =>
    intro j hj hp
    cases j with
    | zero =>
      rw [List.getD_cons_zero] at hp
      rw [List.take_zero, List.countP_nil, List.filter_cons, if_pos hp]
      exact ⟨by simp, by rw [List.getD_cons_zero, List.getD_cons_zero]⟩
    | succ j =>
      rw [List.getD_cons_succ] at hp
      have hj2 : j < l.length := by simpa using hj
      obtain ⟨ih1, ih2⟩ := ih hj2 hp
      rw [List.take_succ_cons, List.countP_cons, List.getD_cons_succ]
      by_cases hpa : p a = true
      · rw [List.filter_cons, if_pos hpa]
        simp only [hpa, if_true]
        constructor
        · simpa using ih1
        · rw [List.getD_cons_succ]
          exact ih2
      · rw [List.filter_cons, if_neg hpa]
        simp only [hpa, if_false]
        exact ⟨ih1, ih2⟩

/-- Conversely, the element at index `m` of the filtered list comes from an
index `j` of the original with `(l.take j).countP p = m`. -/
theorem exists_getD_of_filter_index {l : List α} [Inhabited α] {p : α → Bool} :
    ∀ {m : Nat}, m < (l.filter p).length →
      ∃ j, j < l.length ∧ (l.take j).countP p = m ∧ p (l.getD j default) = true
        ∧ l.getD j default = (l.filter p).getD m default := by
  induction l with
  | nil => intro m hm; rw [List.filter_nil] at hm; exact absurd hm (by simp)
  | cons a l ih =>
    intro m hm
    by_cases hpa : p a = true
    · cases m with
      | zero =>
        refine ⟨0, by simp, by simp, by simpa using hpa, ?_⟩
        rw [List.getD_cons_zero, List.filter_cons, if_pos hpa, List.getD_cons_zero]
      | succ m =>
        have hm2 : m < (l.filter p).length := by
          rw [List.filter_cons, if_pos hpa] at hm
          simpa using hm
        obtain ⟨j, hj, hcnt, hpj, heq⟩ := ih hm2
        refine ⟨j + 1, by simpa using hj, ?_, by rwa [List.getD_cons_succ], ?_⟩
        · rw [List.take_succ_cons, List.countP_cons, hcnt]
          simp [hpa]
        · rw [List.getD_cons_succ, List.filter_cons, if_pos hpa, List.getD_cons_succ]
          exact heq
    · have hm2 : m < (l.filter p).length := by
        rw [List.filter_cons, if_neg hpa] at hm
        exact hm
      obtain ⟨j, hj, hcnt, hpj, heq⟩ := ih hm2
      refine ⟨j + 1, by simpa using hj, ?_, by rwa [List.getD_cons_succ], ?_⟩
      · rw [List.take_succ_cons, List.countP_cons, hcnt]
        simp [hpa]
      · rw [List.getD_cons_succ, List.filter_cons, if_neg hpa]
        exact heq

/-- If every non-locked widget is blocked (its `y` is at most 0, its
`x`-extent is out of bounds, or a cell of its one-higher test rectangle is
occupied by the initial grid or an earlier non-locked widget), the placement
loop moves nothing. -/
theorem place_widgets_stay (g : OccupiedGrid) (ws : List Widget)
    (hcert : ∀ j, j < ws.length → (ws.getD j default).locked = false →
      (ws.getD j default).position.y ≤ 0
      ∨ (ws.getD j default).position.x < 0
      ∨ (ws.getD j default).position.x + (ws.getD j default).position.w > g.columns
      ∨ ∃ c, c ∈ Position.cells
            { (ws.getD j default).position with
              y := (ws.getD j default).position.y - 1 }
          ∧ (c ∈ g.positions
            ∨ ∃ i, i < j ∧ (ws.getD i default).locked = false
                ∧ c ∈ (ws.getD i default).position.cells)) :
    place_widgets g ws = ws := by
  induction ws generalizing g with
  | nil => rfl
  | cons b ws ih =>
    rw [place_widgets]
    by_cases hb : b.locked = true
    · rw [if_pos hb]
      congr 1
      apply ih g
      intro j hj hl
      have hc := hcert (j + 1) (by simpa using hj) (by rwa [List.getD_cons_succ])
      rw [List.getD_cons_succ] at hc
      rcases hc with h | h | h | ⟨c, hc1, hcg | ⟨i, hi, hil, hic⟩⟩
      · exact Or.inl h
      · exact Or.inr (Or.inl h)
      · exact Or.inr (Or.inr (Or.inl h))
      · exact Or.inr (Or.inr (Or.inr ⟨c, hc1, Or.inl hcg⟩))
      · cases i with
        | zero =>
          rw [List.getD_cons_zero] at hil
          rw [hb] at hil
          cases hil
        | succ i =>
          rw [List.getD_cons_succ] at hil hic
          exact Or.inr (Or.inr (Or.inr ⟨c, hc1, Or.inr ⟨i, by omega, hil, hic⟩⟩))
    · rw [if_neg hb]
      have hc0 := hcert 0 (by simp) (by rw [List.getD_cons_zero]; simpa using hb)
      rw [List.getD_cons_zero] at hc0
      have hfhp : g.find_highest_position b.position = b.position := by
        apply fhp_of_stop
        rcases hc0 with h | h | h | ⟨c, hc1, hcg | ⟨i, hi, _, _⟩⟩
        · exact Or.inl h
        · right
          exact can_place_at_eq_false_of_bounds (Or.inl h)
        · right
          exact can_place_at_eq_false_of_bounds (Or.inr (Or.inr h))
        · right
          exact can_place_at_eq_false_of_mem hc1 hcg
        · exact absurd hi (by omega)
      rw [hfhp]
      refine congrArg₂ List.cons rfl (ih (g.register_occupied b.position) ?_)
      intro j hj hl
      have hc := hcert (j + 1) (by simpa using hj) (by rwa [List.getD_cons_succ])
      rw [List.getD_cons_succ] at hc
      rcases hc with h | h | h | ⟨c, hc1, hcg | ⟨i, hi, hil, hic⟩⟩
      · exact Or.inl h
      · exact Or.inr (Or.inl h)
      · exact Or.inr (Or.inr (Or.inl h))
      · exact Or.inr (Or.inr (Or.inr ⟨c, hc1,
          Or.inl (mem_register_occupied.mpr (Or.inr hcg))⟩))
      · cases i with
        | zero =>
          rw [List.getD_cons_zero] at hic
          exact Or.inr (Or.inr (Or.inr ⟨c, hc1,
            Or.inl (mem_register_occupied.mpr (Or.inl hic))⟩))
        | succ i =>
          rw [List.getD_cons_succ] at hil hic
          exact Or.inr (Or.inr (Or.inr ⟨c, hc1, Or.inr ⟨i, by omega, hil, hic⟩⟩))

/-- Transport of the placement certificates along the stable re-sort: if
every non-locked widget of `L1` is supported (with owners that sort no later
under `(y, x)`), then every non-locked widget of `sortB le_yx L1` is
supported with earlier-in-the-sorted-list owners, over any grid that contains
the original one.  Strict-key owners come before by sortedness; tied owners
keep their relative order by stability (the per-key filter is unchanged). -/
theorem sorted_certs_transport (L1 : List Widget) (gA gB : OccupiedGrid)
    (hmemAB : ∀ c : Int × Int, c ∈ gA.positions → c ∈ gB.positions)
    (hcolsAB : gA.columns = gB.columns)
    (hcerts : ∀ j1, j1 < L1.length → (L1.getD j1 default).locked = false →
      (L1.getD j1 default).position.y ≤ 0
      ∨ (L1.getD j1 default).position.x < 0
      ∨ (L1.getD j1 default).position.x + (L1.getD j1 default).position.w > gA.columns
      ∨ ∃ c, c ∈ Position.cells
            { (L1.getD j1 default).position with
              y := (L1.getD j1 default).position.y - 1 }
          ∧ (c ∈ gA.positions
            ∨ ∃ i, i < j1 ∧ (L1.getD i default).locked = false
                ∧ c ∈ (L1.getD i default).position.cells
                ∧ le_yx (L1.getD i default) (L1.getD j1 default) = true)) :
    ∀ j, j < (sortB le_yx L1).length →
      ((sortB le_yx L1).getD j default).locked = false →
      ((sortB le_yx L1).getD j default).position.y ≤ 0
      ∨ ((sortB le_yx L1).getD j default).position.x < 0
      ∨ ((sortB le_yx L1).getD j default).position.x
          + ((sortB le_yx L1).getD j default).position.w > gB.columns
      ∨ ∃ c, c ∈ Position.cells
            { ((sortB le_yx L1).getD j default).position with
              y := ((sortB le_yx L1).getD j default).position.y - 1 }
          ∧ (c ∈ gB.positions
            ∨ ∃ i, i < j ∧ ((sortB le_yx L1).getD i default).locked = false
                ∧ c ∈ ((sortB le_yx L1).getD i default).position.cells) := by
  intro j hj hl
  have hperm : (sortB le_yx L1).Perm L1 := sortB_perm le_yx_trans le_yx_total L1
  have hsorted2 := sortB_sorted le_yx_trans le_yx_total L1
  set p : Widget → Bool := fun v =>
    decide (v.position.y = ((sortB le_yx L1).getD j default).position.y)
      && decide (v.position.x = ((sortB le_yx L1).getD j default).position.x) with hp_def
  have hfilter : (sortB le_yx L1).filter p = L1.filter p := by
    refine sortB_filter_stable le_yx_trans le_yx_total L1 p (fun a b ha hb => ?_)
    rw [hp_def] at ha hb
    simp only [Bool.and_eq_true, decide_eq_true_eq] at ha hb
    rw [le_yx_iff]
    omega
  have hp_b : p ((sortB le_yx L1).getD j default) = true := by
    rw [hp_def]
    simp
  obtain ⟨hmlt, hmeq⟩ := filter_index_of_getD hj hp_b
  rw [hfilter] at hmlt hmeq
  obtain ⟨j1, hj1, hcnt1, hpj1, heq1⟩ := exists_getD_of_filter_index hmlt
  have hb1 : L1.getD j1 default = (sortB le_yx L1).getD j default := heq1.trans hmeq
  have hcert := hcerts j1 hj1 (by rw [hb1]; exact hl)
  rw [hb1] at hcert
  rcases hcert with h | h | h | ⟨c, hc1, hcg | ⟨i1, hi1, hil1, hic1, hle1⟩⟩
  · exact Or.inl h
  · exact Or.inr (Or.inl h)
  · rw [hcolsAB] at h
    exact Or.inr (Or.inr (Or.inl h))
  · exact Or.inr (Or.inr (Or.inr ⟨c, hc1, Or.inl (hmemAB c hcg)⟩))
  · refine Or.inr (Or.inr (Or.inr ⟨c, hc1, Or.inr ?_⟩))
    have hi1len : i1 < L1.length := by omega
    by_cases hkey : p (L1.getD i1 default) = true
    · -- tied key: stability keeps the owner earlier
      obtain ⟨hm1lt, hm1eq⟩ := filter_index_of_getD hi1len hkey
      have hm1m : (L1.take i1).countP p < (L1.take j1).countP p := by
        have hstep := countP_take_succ_of_true hi1len hkey
        have hmono := countP_take_mono (l := L1) (p := p)
          (show i1 + 1 ≤ j1 by omega)
        omega
      rw [← hfilter] at hm1lt hm1eq
      obtain ⟨i2, hi2, hcnt2, hpi2, heq2⟩ := exists_getD_of_filter_index hm1lt
      have hval : (sortB le_yx L1).getD i2 default = L1.getD i1 default :=
        heq2.trans hm1eq
      have hi2j : i2 < j := by
        by_contra hcon
        have hmono := countP_take_mono (l := sortB le_yx L1) (p := p)
          (show j ≤ i2 by omega)
        omega
      exact ⟨i2, hi2j, by rw [hval]; exact hil1, by rw [hval]; exact hic1⟩
    · -- strictly smaller key: any occurrence comes earlier by sortedness
      have hmem1 : L1.getD i1 default ∈ L1 := getD_mem hi1len
      have hmem2 : L1.getD i1 default ∈ sortB le_yx L1 := hperm.mem_iff.mpr hmem1
      obtain ⟨i2, hi2len, hi2eq⟩ := List.getElem_of_mem hmem2
      have hval : (sortB le_yx L1).getD i2 default = L1.getD i1 default := by
        rw [getD_eq_getElem hi2len]
        exact hi2eq
      have hi2j : i2 < j := by
        rcases Nat.lt_trichotomy i2 j with h2 | h2 | h2
        · exact h2
        · exfalso
          apply hkey
          rw [h2] at hval
          rw [← hval]
          exact hp_b
        · exfalso
          have hpg := List.pairwise_iff_getElem.mp hsorted2 j i2 (by omega) hi2len h2
          rw [← getD_eq_getElem (by omega : j < (sortB le_yx L1).length),
            ← getD_eq_getElem hi2len] at hpg
          rw [hval] at hpg
          have hanti := le_yx_antisymm_key hle1 hpg
          apply hkey
          rw [hp_def]
          simp only [Bool.and_eq_true, decide_eq_true_eq]
          exact ⟨hanti.1, hanti.2⟩
      exact ⟨i2, hi2j, by rw [hval]; exact hil1, by rw [hval]; exact hic1⟩

/-- The idempotence core: in compact mode, a second `optimize_layout` pass is
exactly the stable re-sort of the first pass's output — no widget moves. -/
theorem optimize_layout_idem (W : List Widget) (C : GridConfig) (hf : C.float = false) :
    optimize_layout (optimize_layout W C) C
      = sortB le_yx (optimize_layout W C) := by
  have hL1 : optimize_layout W C
      = place_widgets
          (register_all (OccupiedGrid.new C.columns)
            ((sortB le_yx W).filter fun b => b.locked))
          (sortB le_yx W) := optimize_layout_compact hf
  rw [optimize_layout_compact hf]
  apply place_widgets_stay
  have hcertsA : ∀ j1, j1 < (optimize_layout W C).length →
      ((optimize_layout W C).getD j1 default).locked = false →
      ((optimize_layout W C).getD j1 default).position.y ≤ 0
      ∨ ((optimize_layout W C).getD j1 default).position.x < 0
      ∨ ((optimize_layout W C).getD j1 default).position.x
          + ((optimize_layout W C).getD j1 default).position.w
          > (register_all (OccupiedGrid.new C.columns)
              ((sortB le_yx W).filter fun b => b.locked)).columns
      ∨ ∃ c, c ∈ Position.cells
            { ((optimize_layout W C).getD j1 default).position with
              y := ((optimize_layout W C).getD j1 default).position.y - 1 }
          ∧ (c ∈ (register_all (OccupiedGrid.new C.columns)
                ((sortB le_yx W).filter fun b => b.locked)).positions
            ∨ ∃ i, i < j1 ∧ ((optimize_layout W C).getD i default).locked = false
                ∧ c ∈ ((optimize_layout W C).getD i default).position.cells
                ∧ le_yx ((optimize_layout W C).getD i default)
                    ((optimize_layout W C).getD j1 default) = true) := by
    intro j1 hj1 hl1
    rw [hL1] at hj1 hl1 ⊢
    exact place_widgets_cert _ _ (sortB_sorted le_yx_trans le_yx_total W) j1 hj1 hl1
  have hmemAB : ∀ c : Int × Int,
      c ∈ (register_all (OccupiedGrid.new C.columns)
            ((sortB le_yx W).filter fun b => b.locked)).positions →
      c ∈ (register_all (OccupiedGrid.new C.columns)
            ((sortB le_yx (optimize_layout W C)).filter fun b => b.locked)).positions := by
    intro c hc
    rw [mem_register_all] at hc ⊢
    rcases hc with ⟨b, hb, hcc⟩ | hc2
    · left
      have hfl : (optimize_layout W C).filter (fun b => b.locked)
          = (sortB le_yx W).filter fun b => b.locked := by
        rw [hL1]
        exact filter_locked_eq_of_frame (place_widgets_frame _ _)
      have hb2 : b ∈ (sortB le_yx (optimize_layout W C)).filter fun b => b.locked := by
        have hpf : ((sortB le_yx (optimize_layout W C)).filter fun b => b.locked).Perm
            ((optimize_layout W C).filter fun b => b.locked) :=
          (sortB_perm le_yx_trans le_yx_total _).filter _
        rw [hpf.mem_iff, hfl]
        exact hb
      exact ⟨b, hb2, hcc⟩
    · exact Or.inr hc2
  have hcolsAB : (register_all (OccupiedGrid.new C.columns)
        ((sortB le_yx W).filter fun b => b.locked)).columns
      = (register_all (OccupiedGrid.new C.columns)
          ((sortB le_yx (optimize_layout W C)).filter fun b => b.locked)).columns := by
    rw [register_all_columns, register_all_columns]
  exact sorted_certs_transport (optimize_layout W C) _ _ hmemAB hcolsAB hcertsA

/-- Claim C2 as amended: a second non-float `optimize_layout` pass only
re-sorts the list stably by `(y, x)` — it is a permutation of the first
pass's output in which every widget (id, position and all) is unchanged.
The original claim's literal equality fails because the first pass emits the
widgets in the order of the input's `(y, x)` keys, which after compaction
need not be sorted, so the second pass can reorder. -/
theorem claim_C2_idempotent_up_to_order (W : List Widget) (C : GridConfig)
    (hf : C.float = false) :
    optimize_layout (optimize_layout W C) C = sortB le_yx (optimize_layout W C)
    ∧ (optimize_layout (optimize_layout W C) C).Perm (optimize_layout W C) := by
  have h := optimize_layout_idem W C hf
  refine ⟨h, ?_⟩
  rw [h]
  exact sortB_perm le_yx_trans le_yx_total _

/-- Counterexample to C2 as stated: `a` at `(5, 0)` and `b` at `(0, 1)` —
the first pass keeps order `[a, b]` but raises `b` to `(0, 0)`; the second
pass re-sorts to `[b, a]`, so the outputs differ as lists (every widget's
position is unchanged). -/
theorem claim_C2_counterexample :
    optimize_layout
        (optimize_layout [wid "a" 5 0 1 1, wid "b" 0 1 1 1] (cfg_compact 12))
        (cfg_compact 12)
      ≠ optimize_layout [wid "a" 5 0 1 1, wid "b" 0 1 1 1] (cfg_compact 12) := by
  decide

/-- Witness for C2 at a concrete input. -/
theorem claim_C2_idempotent_up_to_order_witness :
    optimize_layout
        (optimize_layout [wid "a" 5 0 1 1, wid "b" 0 1 1 1] (cfg_compact 12))
        (cfg_compact 12)
      = sortB le_yx (optimize_layout [wid "a" 5 0 1 1, wid "b" 0 1 1 1] (cfg_compact 12))
    ∧ (optimize_layout
        (optimize_layout [wid "a" 5 0 1 1, wid "b" 0 1 1 1] (cfg_compact 12))
        (cfg_compact 12)).Perm
      (optimize_layout [wid "a" 5 0 1 1, wid "b" 0 1 1 1] (cfg_compact 12)) :=
  claim_C2_idempotent_up_to_order [wid "a" 5 0 1 1, wid "b" 0 1 1 1]
    (cfg_compact 12) rfl

/-- Witness for C1 at a concrete input. -/
theorem claim_C1_no_overlap_witness :
    List.Pairwise (fun a b => blocks_collide a.position b.position = false)
      (optimize_layout [wid "a" 0 5 4 2, lwid "l" 0 0 4 2, wid "b" 6 1 2 2]
        (cfg_compact 12)) :=
  claim_C1_no_overlap [wid "a" 0 5 4 2, lwid "l" 0 0 4 2, wid "b" 6 1 2 2]
    (cfg_compact 12) rfl (by decide) (by decide)

end GridEngine
